import Mathlib

/-!
# Verification of the deterministic resume-rendering pipeline

Shallow embedding of the core of the `resume-generator` repository:

* `src/utils/deterministic-pdf.ts` — the PDF determinism normalizer
  (`ensureDeterministicPDF`), built on JavaScript
  `String.prototype.replace` with global regular expressions;
* `src/schemas/resume-schema.ts` — the Handlebars `formatDate` helper,
  the fixed HTML template and `generateHTML`;
* `src/utils/template-cache.ts` — the compiled-template cache;
* `src/utils/browser-pool.ts` — the pooled renderer process/context;
* `src/generators/pdf-generator.ts` — `generatePDF` and its error
  mapping, together with `validateResumeData`.

Byte strings are modelled as `List Char` (the code treats PDF bytes as a
binary-safe latin1 string); JavaScript strings as Lean `String`/
`List Char`.
-/

/-! ## JavaScript global-regex replacement

All regular expressions used by `deterministic-pdf.ts` have the shape
`KEY [^S]* S` or `KEY [^S]+ S` for a literal `KEY` and a single closing
delimiter `S` (for example `/\/CreationDate \([^)]*\)/g`).  Such a
pattern is captured by `Pat`.  `String.prototype.replace` with the `g`
flag scans the subject left to right, replaces every non-overlapping
match, and does not re-scan replacement text or text spliced together
by a removal; `replJS` reproduces exactly that semantics. -/

structure Pat where
  key : List Char
  stop : Char
  minOne : Bool
deriving DecidableEq, Repr

/-- Length of the (greedy) match of `p` at the start of `s`, if any.
`KEY` must be a literal prefix, the value runs to the first `stop`
character, which must be present; an empty value is rejected when the
pattern uses `+` (`minOne = true`).  Backtracking cannot produce any
other match, since the value class excludes the closing delimiter. -/
def tryMatchLen (p : Pat) (s : List Char) : Option Nat :=
  if p.key.isPrefixOf s then
    if ((s.drop p.key.length).takeWhile (fun c => c != p.stop)).length <
        (s.drop p.key.length).length then
      if p.minOne &&
          (((s.drop p.key.length).takeWhile (fun c => c != p.stop)).length == 0) then
        none
      else
        some (p.key.length +
          ((s.drop p.key.length).takeWhile (fun c => c != p.stop)).length + 1)
    else none
  else none

/-- Fuel-indexed scanner; `fuel ≥ s.length` makes it total on `s`. -/
def scanGo (p : Pat) (r : List Char) : Nat → List Char → List Char
  | _, [] => []
  | 0, s => s
  | fuel + 1, c :: t =>
    match tryMatchLen p (c :: t) with
    | some n => r ++ scanGo p r fuel ((c :: t).drop n)
    | none => c :: scanGo p r fuel t

/-- `s.replace(/KEY[^S]*S/g, r)` in JavaScript. -/
def replJS (p : Pat) (r : List Char) (s : List Char) : List Char :=
  scanGo p r s.length s

/-- Does the scan of `s` find a match of `p` anywhere? -/
def hasMatch (p : Pat) : List Char → Bool
  | [] => false
  | c :: t => (tryMatchLen p (c :: t)).isSome || hasMatch p t

/-- Fuel-indexed check that every match of `p` found by the scan has
exactly the value `val`. -/
def allGo (p : Pat) (val : List Char) : Nat → List Char → Bool
  | _, [] => true
  | 0, _ => true
  | fuel + 1, c :: t =>
    match tryMatchLen p (c :: t) with
    | some n =>
      ((c :: t).take n == p.key ++ val ++ [p.stop]) &&
        allGo p val fuel ((c :: t).drop n)
    | none => allGo p val fuel t

/-- Every match of `p` in `s` carries exactly the value `val`. -/
def allMatchesVal (p : Pat) (val : List Char) (s : List Char) : Bool :=
  allGo p val s.length s

/-- `s.match(/KEY[^S]*S/)`: split `s` around the first match of `p`
(before, match, after), as used for the `/Title (...)` lookup. -/
def findSplit (p : Pat) : List Char → Option (List Char × List Char × List Char)
  | [] => none
  | c :: t =>
    match tryMatchLen p (c :: t) with
    | some n => some ([], (c :: t).take n, (c :: t).drop n)
    | none => (findSplit p t).map (fun x => (c :: x.1, x.2.1, x.2.2))

/-- `keysClash k1 k2` holds when the two literals disagree at some position
within both of their lengths; then `k1` can never match where `k2` sits. -/
def keysClash : List Char → List Char → Bool
  | [], _ => false
  | _, [] => false
  | a :: as, b :: bs => (a != b) || keysClash as bs

/-! ## `src/utils/deterministic-pdf.ts`

`ensureDeterministicPDF` reads the PDF file, applies the regex
substitutions below to its bytes viewed as a latin1 string, and writes
the result back.  The file I/O is abstracted away: the model is the
byte-string transformation. -/

/-- `/\/CreationDate \([^)]*\)/g` -/
def patCre : Pat := ⟨"/CreationDate (".data, ')', false⟩

/-- `/\/ModDate \([^)]*\)/g` -/
def patMod : Pat := ⟨"/ModDate (".data, ')', false⟩

/-- `/\/ID \[[^\]]+\]/g` -/
def patID : Pat := ⟨"/ID [".data, ']', true⟩

/-- `/\/Producer \([^)]*\)/g` -/
def patProd : Pat := ⟨"/Producer (".data, ')', false⟩

/-- `/\/Creator \([^)]*\)/g` -/
def patCreat : Pat := ⟨"/Creator (".data, ')', false⟩

/-- `/\/Title \([^)]*\)/` (non-global, used via `.match`) -/
def patTitle : Pat := ⟨"/Title (".data, ')', false⟩

/-- The constant replacement value `Resume PDF Generator`. -/
def constVal : List Char := "Resume PDF Generator".data

/-- Replacement string for `/Producer (...)`. -/
def prodRepl : List Char := "/Producer (Resume PDF Generator)".data

/-- Replacement string for `/Creator (...)`. -/
def creatRepl : List Char := "/Creator (Resume PDF Generator)".data

/-- `interface DeterministicConfig` -/
structure DeterministicConfig where
  removeTimestamps : Bool
  fixedCreationDate : Option (List Char) := none
  removeVariableMetadata : Bool
deriving DecidableEq, Repr

/-- `DEFAULT_DETERMINISTIC_CONFIG` (no `fixedCreationDate`). -/
def DEFAULT_DETERMINISTIC_CONFIG : DeterministicConfig :=
  { removeTimestamps := true, removeVariableMetadata := true }

/-- The `config.fixedCreationDate` insertion: find the first
`/Title (...)` match and splice `"\n/CreationDate (" + d + ")"` in right
after it; if there is no title entry, leave the string unchanged. -/
def insertFixedDate (d : List Char) (s : List Char) : List Char :=
  match findSplit patTitle s with
  | none => s
  | some (a, m, b) =>
    a ++ m ++ ('\n' :: "/CreationDate (".data ++ d ++ [')']) ++ b

/-- `ensureDeterministicPDF(pdfPath, config)` as the transformation it
applies to the file bytes.  Mirrors the source order: early return when
both flags are off (in which case even `fixedCreationDate` is skipped),
then CreationDate and ModDate removal, then ID removal and
Producer/Creator replacement, then the optional fixed-date insertion. -/
def ensureDeterministicPDF (config : DeterministicConfig) (s : List Char) :
    List Char :=
  if !config.removeTimestamps && !config.removeVariableMetadata then s
  else
    let s1 :=
      if config.removeTimestamps then
        replJS patMod [] (replJS patCre [] s)
      else s
    let s2 :=
      if config.removeVariableMetadata then
        replJS patCreat creatRepl
          (replJS patProd prodRepl (replJS patID [] s1))
      else s1
    match config.fixedCreationDate with
    | none => s2
    | some d => insertFixedDate d s2

inductive PdfItem where
  | seg (u : List Char)
  | entry (q : Pat) (v : List Char)
deriving DecidableEq, Repr

def itemStr : PdfItem → List Char
  | .seg u => u
  | .entry q v => q.key ++ v ++ [q.stop]

def docStr : List PdfItem → List Char
  | [] => []
  | it :: rest => itemStr it ++ docStr rest

/-- Obligations letting pattern `p` (with key head `kh`) scan one item:
a segment free of `kh`; an entry of `p` itself with a well-formed value;
or an entry of a clashing key whose remaining characters avoid `kh`. -/
inductive ItemOK (p : Pat) (kh : Char) : PdfItem → Prop where
  | seg {u} (hu : ∀ c ∈ u, c ≠ kh) : ItemOK p kh (.seg u)
  | own {v} (hv : ∀ c ∈ v, c ≠ p.stop) (hone : p.minOne = true → v ≠ []) :
      ItemOK p kh (.entry p v)
  | foreign {q v} {qh : Char} {qt : List Char} (hq : q.key = qh :: qt)
      (hclash : keysClash p.key q.key = true)
      (hqt : ∀ c ∈ qt, c ≠ kh) (hv : ∀ c ∈ v, c ≠ kh) (hstop : q.stop ≠ kh) :
      ItemOK p kh (.entry q v)

/-- Effect of one pass on one item: entries of the scanned pattern are
replaced by the replacement items, everything else is kept. -/
def passItem (p : Pat) (rIt : List PdfItem) : PdfItem → List PdfItem
  | .seg u => [.seg u]
  | .entry q v => if q = p then rIt else [.entry q v]

/-- Items guaranteed to contain no match of `p` at all. -/
inductive ItemFree (p : Pat) (kh : Char) : PdfItem → Prop where
  | seg {u} (hu : ∀ c ∈ u, c ≠ kh) : ItemFree p kh (.seg u)
  | foreign {q v} {qh : Char} {qt : List Char} (hq : q.key = qh :: qt)
      (hclash : keysClash p.key q.key = true)
      (hqt : ∀ c ∈ qt, c ≠ kh) (hv : ∀ c ∈ v, c ≠ kh) (hstop : q.stop ≠ kh) :
      ItemFree p kh (.entry q v)

/-- Items whose `p`-matches, if any, carry exactly the value `val`. -/
inductive ItemVal (p : Pat) (kh : Char) (val : List Char) : PdfItem → Prop where
  | seg {u} (hu : ∀ c ∈ u, c ≠ kh) : ItemVal p kh val (.seg u)
  | ownVal (hv : ∀ c ∈ val, c ≠ p.stop) (hone : p.minOne = true → val ≠ []) :
      ItemVal p kh val (.entry p val)
  | foreign {q v} {qh : Char} {qt : List Char} (hq : q.key = qh :: qt)
      (hclash : keysClash p.key q.key = true)
      (hqt : ∀ c ∈ qt, c ≠ kh) (hv : ∀ c ∈ v, c ≠ kh) (hstop : q.stop ≠ kh) :
      ItemVal p kh val (.entry q v)

/-- Representative artifact: free segments (no `/` byte) surrounding one
well-formed CreationDate, ModDate, ID, Producer and Creator entry each. -/
def pdfArtifact (u0 c u1 m u2 i u3 pv u4 cv u5 : List Char) : List PdfItem :=
  [.seg u0, .entry patCre c, .seg u1, .entry patMod m, .seg u2, .entry patID i,
   .seg u3, .entry patProd pv, .seg u4, .entry patCreat cv, .seg u5]

/-- Expected normalization result for `pdfArtifact`. -/
def pdfNormalized (u0 u1 u2 u3 u4 u5 : List Char) : List PdfItem :=
  [.seg u0, .seg u1, .seg u2, .seg u3, .entry patProd constVal, .seg u4,
   .entry patCreat constVal, .seg u5]

def pdfArt1 (u0 u1 m u2 i u3 pv u4 cv u5 : List Char) : List PdfItem :=
  [.seg u0, .seg u1, .entry patMod m, .seg u2, .entry patID i, .seg u3,
   .entry patProd pv, .seg u4, .entry patCreat cv, .seg u5]

def pdfArt2 (u0 u1 u2 i u3 pv u4 cv u5 : List Char) : List PdfItem :=
  [.seg u0, .seg u1, .seg u2, .entry patID i, .seg u3, .entry patProd pv,
   .seg u4, .entry patCreat cv, .seg u5]

def pdfArt3 (u0 u1 u2 u3 pv u4 cv u5 : List Char) : List PdfItem :=
  [.seg u0, .seg u1, .seg u2, .seg u3, .entry patProd pv, .seg u4,
   .entry patCreat cv, .seg u5]

def pdfArt4 (u0 u1 u2 u3 u4 cv u5 : List Char) : List PdfItem :=
  [.seg u0, .seg u1, .seg u2, .seg u3, .entry patProd constVal, .seg u4,
   .entry patCreat cv, .seg u5]

/-! ## `formatDate` (Handlebars helper in `src/schemas/resume-schema.ts`)

The helper returns `"Present"` for an empty value; parses strings
containing `T` with the `Date` constructor (timezone-dependent); and
parses date-only strings by splitting on `-` and calling
`new Date(year, month - 1, day)`, then renders via
`toLocaleDateString("en-US", { year: "numeric", month: "long" })`.
The `Date` component semantics below follow ECMAScript `MakeFullYear`
(years 0 to 99 mean 1900 + year) and `MakeDay` (month carries into the
year, day overflow carries into following months). -/

def monthLongName : Nat → String
  | 0 => "January"
  | 1 => "February"
  | 2 => "March"
  | 3 => "April"
  | 4 => "May"
  | 5 => "June"
  | 6 => "July"
  | 7 => "August"
  | 8 => "September"
  | 9 => "October"
  | 10 => "November"
  | 11 => "December"
  | _ => ""

def isLeapYear (y : Int) : Bool :=
  (y.emod 4 == 0 && y.emod 100 != 0) || y.emod 400 == 0

/-- Days in the zero-based month `m` of year `y`. -/
def daysInMonth (y : Int) (m : Nat) : Nat :=
  match m with
  | 0 => 31
  | 1 => if isLeapYear y then 29 else 28
  | 2 => 31
  | 3 => 30
  | 4 => 31
  | 5 => 30
  | 6 => 31
  | 7 => 31
  | 8 => 30
  | 9 => 31
  | 10 => 30
  | _ => 31

def nextMonth (y : Int) (m : Nat) : Int × Nat :=
  if m = 11 then (y + 1, 0) else (y, m + 1)

def prevMonth (y : Int) (m : Nat) : Int × Nat :=
  if m = 0 then (y - 1, 11) else (y, m - 1)

/-- Day-of-month normalization: days beyond the month length carry into
following months; day 0 denotes the last day of the preceding month.
Each carry step removes at least 28 days, so `fuel ≥ d` steps suffice. -/
def normDays : Nat → Int → Nat → Nat → Int × Nat × Nat
  | 0, y, m, d => (y, m, d)
  | fuel + 1, y, m, d =>
    if d = 0 then
      let p := prevMonth y m
      (p.1, p.2, daysInMonth p.1 p.2)
    else if daysInMonth y m < d then
      let nx := nextMonth y m
      normDays fuel nx.1 nx.2 (d - daysInMonth y m)
    else (y, m, d)

/-- ECMAScript `MakeFullYear`: integer years 0 to 99 denote 1900 + y. -/
def jsMakeFullYear (y : Int) : Int :=
  if 0 ≤ y ∧ y ≤ 99 then 1900 + y else y

/-- Year and zero-based month of `new Date(year, monthIndex, day)`. -/
def jsDateYearMonth (year : Int) (monthIndex : Int) (day : Nat) : Int × Nat :=
  let yy := jsMakeFullYear year
  let ym := yy + monthIndex.fdiv 12
  let mn := (monthIndex.emod 12).toNat
  let r := normDays (day + 1) ym mn day
  (r.1, r.2.1)

/-- `String.prototype.includes` for a single character. -/
def jsIncludes (l : List Char) (a : Char) : Bool :=
  l.any (fun c => c == a)

/-- `String.prototype.split("-")`. -/
def splitDash : List Char → List (List Char)
  | [] => [[]]
  | c :: t =>
    if c = '-' then [] :: splitDash t
    else
      match splitDash t with
      | [] => [[c]]
      | h :: r => (c :: h) :: r

/-- `Number(part)` for the split parts: digit strings (including the
empty string, which is 0) give a number, anything else gives NaN. -/
def toNumOpt (l : List Char) : Option Int :=
  if l.all (fun c => c.isDigit) then
    some (l.foldl (fun acc c => acc * 10 + ((c.toNat - 48 : Nat) : Int)) 0)
  else none

/-- Hinnant day-number from a civil date (`m` is 1-based here); used only
by the ISO branch. -/
def daysFromCivil (y : Int) (m : Nat) (d : Nat) : Int :=
  let yAdj := if m ≤ 2 then y - 1 else y
  let era := yAdj.fdiv 400
  let yoe := (yAdj - era * 400).toNat
  let mp := (m + 9) % 12
  let doy := (153 * mp + 2) / 5 + d - 1
  let doe := yoe * 365 + yoe / 4 - yoe / 100 + doy
  era * 146097 + (doe : Int) - 719468

/-- Hinnant civil date from a day number (1-based month); used only by
the ISO branch. -/
def civilFromDays (z : Int) : Int × Nat × Nat :=
  let zAdj := z + 719468
  let era := zAdj.fdiv 146097
  let doe := (zAdj - era * 146097).toNat
  let yoe := (doe - doe / 1460 + doe / 36524 - doe / 146096) / 365
  let y := (yoe : Int) + era * 400
  let doy := doe - (365 * yoe + yoe / 4 - yoe / 100)
  let mp := (5 * doy + 2) / 153
  let d := doy - (153 * mp + 2) / 5 + 1
  let m := if mp < 10 then mp + 3 else mp - 9
  (if m ≤ 2 then y + 1 else y, m, d)

/-- The ISO-datetime branch of `formatDate` (`dateString.includes("T")`):
`new Date(iso)` with a `Z` suffix denotes UTC; `toLocaleDateString`
renders the month and year of the local time, after adding the host
timezone offset.  Only the UTC (`Z`) form with whole hours is modelled;
the branch is timezone-dependent, unlike the date-only branch. -/
def isoBranch (tzOffsetMinutes : Int) (cs : List Char) : String :=
  let datePart := cs.takeWhile (fun c => c != 'T')
  let timePart := (cs.dropWhile (fun c => c != 'T')).drop 1
  match (splitDash datePart).map toNumOpt with
  | some y :: some mo :: some d :: _ =>
    match toNumOpt (timePart.take 2) with
    | some h =>
      let utcMin := daysFromCivil y mo.toNat d.toNat * 1440 + h * 60
      let locMin := utcMin + tzOffsetMinutes
      let locDay := locMin.fdiv 1440
      let c := civilFromDays locDay
      monthLongName (c.2.1 - 1) ++ " " ++ toString c.1
    | none => "Invalid Date"
  | _ => "Invalid Date"

/-- The `formatDate` Handlebars helper.  `tzOffsetMinutes` is the host
timezone offset (local minus UTC); only the ISO branch may depend on it. -/
def formatDate (tzOffsetMinutes : Int) (s : String) : String :=
  let cs := s.data
  if cs.isEmpty then "Present"
  else if jsIncludes cs 'T' then isoBranch tzOffsetMinutes cs
  else
    match (splitDash cs).map toNumOpt with
    | some y :: some mo :: some d :: _ =>
      let r := jsDateYearMonth y (mo - 1) d.toNat
      monthLongName r.2 ++ " " ++ toString r.1
    | _ => "Invalid Date"

/-! ## `src/utils/browser-pool.ts`

The pool holds at most one browser process and one context.  A browser
is modelled by an identifier and its `isConnected()` flag; a context
records the identifier of the browser it was created from.  Playwright
page creation on a context whose browser has died or been closed fails
with a `Target ... closed` error, which the model reflects in
`getBrowserPage`.  Timer identities are irrelevant to the modelled
claims; the idle timer is kept as a flag. -/

structure BrowserProc where
  id : Nat
  connected : Bool
deriving DecidableEq, Repr

structure PoolState where
  browser : Option BrowserProc
  context : Option Nat
  isShuttingDown : Bool
  lastUsed : Nat
  idleTimerSet : Bool
  nextId : Nat
deriving DecidableEq, Repr

/-- The freshly constructed singleton pool. -/
def initialPool : PoolState :=
  { browser := none
    context := none
    isShuttingDown := false
    lastUsed := 0
    idleTimerSet := false
    nextId := 0 }

/-- `createBrowser()`: launch a new connected process. -/
def createBrowser (st : PoolState) : PoolState :=
  { st with browser := some ⟨st.nextId, true⟩, nextId := st.nextId + 1 }

/-- `createContext()`: create a context from the current browser.  In the
source this throws when no browser exists; `ensureBrowser` only calls it
with a browser present, so the model keeps the state unchanged then. -/
def createContext (st : PoolState) : PoolState :=
  match st.browser with
  | none => st
  | some b => { st with context := some b.id }

/-- `ensureBrowser()`: recreate the process when missing or no longer
connected; create a context only when `this.context` is null.  A stale
context surviving a browser death is kept as-is. -/
def ensureBrowser (st : PoolState) : PoolState :=
  let st1 :=
    if (match st.browser with
        | none => true
        | some b => !b.connected) then createBrowser st else st
  if st1.context.isNone then createContext st1 else st1

/-- Is the current context usable for `newPage()`?  It must belong to the
current browser and that browser must still be connected. -/
def contextAlive (st : PoolState) : Bool :=
  match st.context, st.browser with
  | some cid, some b => cid == b.id && b.connected
  | _, _ => false

/-- `getBrowserPage()`.  Returns the updated pool and a page identifier,
or the message of the error thrown. -/
def getBrowserPage (st : PoolState) (now : Nat) :
    Except String (PoolState × Nat) :=
  if st.isShuttingDown then
    .error "Browser pool is shutting down"
  else
    let st1 := ensureBrowser st
    let st2 := { st1 with lastUsed := now, idleTimerSet := true }
    if st2.context.isNone then
      .error "Browser context not available"
    else if contextAlive st2 then
      .ok (st2, st2.nextId)
    else
      .error "Target page, context or browser has been closed"

/-- The external event of the browser process dying (crash or kill):
`isConnected()` becomes false; the pool fields are untouched. -/
def browserDies (st : PoolState) : PoolState :=
  { st with browser := st.browser.map (fun b => { b with connected := false }) }

/-- `shutdown()`: early-return while already shutting down; otherwise set
the flag, clear the idle timer, close context then browser, and reset
the flag to `false` at the end. -/
def shutdown (st : PoolState) : PoolState :=
  if st.isShuttingDown then st
  else
    { st with
      browser := none
      context := none
      isShuttingDown := false
      idleTimerSet := false }

/-- Pool state after one successful acquisition at time 1. -/
def poolAfterFirst : PoolState :=
  { browser := some ⟨0, true⟩
    context := some 0
    isShuttingDown := false
    lastUsed := 1
    idleTimerSet := true
    nextId := 1 }

/-- `poolAfterFirst` once the browser process has died. -/
def poolStale : PoolState :=
  { browser := some ⟨0, false⟩
    context := some 0
    isShuttingDown := false
    lastUsed := 1
    idleTimerSet := true
    nextId := 1 }

/-! ## Resume data model

Typed counterpart of the JSON consumed by the pipeline.  Fields are
optional (`Option`) exactly where the JSON may omit them; sections that
no modelled operation reads (awards, certifications, publications,
languages, interests, references, profiles) are not represented. -/

structure ResumeLocation where
  city : Option String := none
  region : Option String := none
deriving DecidableEq, Repr

structure ResumeBasics where
  name : Option String := none
  label : Option String := none
  email : Option String := none
  phone : Option String := none
  url : Option String := none
  summary : Option String := none
  location : Option ResumeLocation := none
deriving DecidableEq, Repr

structure WorkEntry where
  name : Option String := none
  position : Option String := none
  url : Option String := none
  startDate : Option String := none
  endDate : Option String := none
  summary : Option String := none
  highlights : List String := []
  location : Option String := none
deriving DecidableEq, Repr

structure EducationEntry where
  institution : Option String := none
  area : Option String := none
  studyType : Option String := none
  startDate : Option String := none
  endDate : Option String := none
  gpa : Option String := none
  courses : List String := []
  location : Option String := none
deriving DecidableEq, Repr

structure SkillGroup where
  name : Option String := none
  level : Option String := none
  keywords : List String := []
deriving DecidableEq, Repr

structure ProjectEntry where
  name : Option String := none
  description : Option String := none
  highlights : List String := []
  keywords : List String := []
  startDate : Option String := none
  endDate : Option String := none
  url : Option String := none
deriving DecidableEq, Repr

structure ResumeDoc where
  basics : Option ResumeBasics := none
  work : Option (List WorkEntry) := none
  education : Option (List EducationEntry) := none
  skills : Option (List SkillGroup) := none
  projects : Option (List ProjectEntry) := none
deriving DecidableEq, Repr

/-- `interface PDFOptions` from `pdf-generator.ts`. -/
structure PDFOptions where
  output : Option String := none
  template : Option String := none
  atsMode : Option Bool := none
  dateFormat : Option String := none
  deterministic : Option Bool := none
  deterministicConfig : Option DeterministicConfig := none
deriving DecidableEq, Repr

/-! ## `validateResumeData` (`src/validators/resume-validator.ts`)

AJV validation against `resumeSchema`: `basics` and `work` are required;
`basics` requires a `name` of minLength 1 and an `email`; every work
item requires a `name` and `position` of minLength 1 and a `startDate`.
The `format` checks (email, uri, date) of `ajv-formats` are not
modelled.  Returns `false` exactly when a `ValidationError` is thrown. -/

def validateResumeDataB (doc : ResumeDoc) : Bool :=
  (match doc.basics with
   | none => false
   | some b =>
     (match b.name with
      | none => false
      | some n => !n.isEmpty) &&
     b.email.isSome) &&
  (match doc.work with
   | none => false
   | some ws =>
     ws.all (fun w =>
       (match w.name with
        | none => false
        | some n => !n.isEmpty) &&
       (match w.position with
        | none => false
        | some p => !p.isEmpty) &&
       w.startDate.isSome))

/-! ## `generatePDF` (`src/generators/pdf-generator.ts`)

`generatePDF` first calls `validateResumeData` (outside the try block,
so a `ValidationError` propagates unmapped); inside the try block it
creates the output directory, renders HTML, acquires a page, sets the
content, exports the PDF to `options.output ?? "resume.pdf"`, and, when
`options.deterministic !== false`, applies `ensureDeterministicPDF` with
`options.deterministicConfig ?? DEFAULT_DETERMINISTIC_CONFIG`.  The
catch block maps an error whose `code` is `ENOENT` or `EACCES` to
`FileSystemError` carrying the output path, and every other caught
error to `PDFGenerationError` carrying the underlying message. -/

inductive GenError where
  | validation (msg : String)
  | fileSystem (msg : String)
  | pdfGeneration (msg : String)
deriving DecidableEq, Repr

/-- A thrown JavaScript error as seen by the catch block. -/
structure JsError where
  code : Option String := none
  message : String := ""
deriving DecidableEq, Repr

/-- The steps inside the try block at which a failure can arise. -/
inductive PdfStep where
  | mkdirStep
  | genHTMLStep
  | getPageStep
  | setContentStep
  | exportStep
  | normalizeStep
deriving DecidableEq, Repr

/-- The catch-block error mapping. -/
def mapCaughtError (outputPath : String) (e : JsError) : GenError :=
  if e.code = some "ENOENT" ∨ e.code = some "EACCES" then
    .fileSystem ("Cannot write to output path: " ++ outputPath)
  else
    .pdfGeneration ("Failed to generate PDF: " ++ e.message)

/-- Normalization step applied by `generatePDF` on success. -/
def generatePDFNormalize (opts : PDFOptions) (pdfBytes : List Char) :
    List Char :=
  if opts.deterministic ≠ some false then
    ensureDeterministicPDF
      (opts.deterministicConfig.getD DEFAULT_DETERMINISTIC_CONFIG) pdfBytes
  else pdfBytes

/-- `generatePDF`, with the fallible environment abstracted as the first
step of the try block that fails (if any) together with the error it
throws.  Returns the output path on success. -/
def generatePDFRun (doc : ResumeDoc) (opts : PDFOptions)
    (failure : Option (PdfStep × JsError)) : Except GenError String :=
  if !validateResumeDataB doc then
    .error (.validation "Resume validation failed")
  else
    let outputPath := opts.output.getD "resume.pdf"
    match failure with
    | none => .ok outputPath
    | some (_, e) => .error (mapCaughtError outputPath e)

/-- The concrete scenario document from the specification. -/
def johnDoc : ResumeDoc :=
  { basics := some { name := some "John Doe", email := some "john@example.com" }
    work := some [{ name := some "Acme", position := some "Engineer",
                    startDate := some "2020-01-01" }] }

/-- A document rejected by the schema: `basics.name` has minLength 1. -/
def emptyNameDoc : ResumeDoc :=
  { basics := some { name := some "", email := some "john@example.com" }
    work := some [] }

/-! ## `TemplateCache` (`src/utils/template-cache.ts`)

The compiled-template cache: a JS `Map` keyed by template name, with
insertion-order iteration, `MAX_CACHE_SIZE` 10 and `CACHE_TTL` five
minutes.  A compiled Handlebars delegate is represented by the identifier
it received at compile time (`tmplId`) plus its source.  Times are
milliseconds.  `Date.now() - compiledAt` is non-negative on a monotone
clock; with a clock step backwards JS produces a negative age, which
compares below the TTL exactly as the truncated Nat subtraction 0 does,
so Nat subtraction is faithful for both comparisons used. -/

def MAX_CACHE_SIZE : Nat := 10

def CACHE_TTL : Nat := 5 * 60 * 1000

structure CacheEntry where
  tmplId : Nat
  source : String
  compiledAt : Nat
  lastUsed : Nat
  useCount : Nat
deriving DecidableEq, Repr

structure TemplateCacheState where
  entries : List (String × CacheEntry)
  nextTmpl : Nat
deriving DecidableEq, Repr

/-- `Map.prototype.get`. -/
def cacheLookup (key : String) : List (String × CacheEntry) → Option CacheEntry
  | [] => none
  | (k, e) :: rest => if k = key then some e else cacheLookup key rest

/-- `Map.prototype.set`: update in place (keeping insertion order) or
append. -/
def cacheSet (key : String) (e : CacheEntry) :
    List (String × CacheEntry) → List (String × CacheEntry)
  | [] => [(key, e)]
  | (k, e0) :: rest =>
    if k = key then (k, e) :: rest else (k, e0) :: cacheSet key e rest

/-- Stable ascending insertion by `lastUsed` (JS `Array.prototype.sort`
is stable). -/
def insertLU (x : String × CacheEntry) :
    List (String × CacheEntry) → List (String × CacheEntry)
  | [] => [x]
  | y :: ys =>
    if x.2.lastUsed ≤ y.2.lastUsed then x :: y :: ys else y :: insertLU x ys

def sortLU (es : List (String × CacheEntry)) : List (String × CacheEntry) :=
  es.foldr insertLU []

/-- `cleanupCache()`: nothing below the size bound; otherwise drop
expired entries first, then evict least-recently-used entries down to
the bound. -/
def cleanupCache (now : Nat) (st : TemplateCacheState) : TemplateCacheState :=
  if st.entries.length ≤ MAX_CACHE_SIZE then st
  else
    let afterExpired :=
      st.entries.filter (fun kv => !(CACHE_TTL ≤ now - kv.2.compiledAt))
    if MAX_CACHE_SIZE < afterExpired.length then
      let removed :=
        (sortLU afterExpired).take (afterExpired.length - MAX_CACHE_SIZE)
      { st with entries :=
          afterExpired.filter (fun kv => !(removed.map Prod.fst).contains kv.1) }
    else { st with entries := afterExpired }

/-- The compile-and-store path of `getTemplate`. -/
def compileAndCache (st : TemplateCacheState) (now : Nat) (key src : String) :
    Nat × Bool × TemplateCacheState :=
  let tid := st.nextTmpl
  let freshEntry : CacheEntry :=
    { tmplId := tid, source := src, compiledAt := now, lastUsed := now, useCount := 1 }
  let st1 : TemplateCacheState :=
    { entries := cacheSet key freshEntry st.entries, nextTmpl := st.nextTmpl + 1 }
  (tid, false, cleanupCache now st1)

/-- `getTemplate(key, templateSource)`: return the cached compiled
template only when it exists and its age is still below the TTL; in
every other case compile afresh, store, and clean up.  The second
component tells whether the call was served from the cache. -/
def getTemplate (st : TemplateCacheState) (now : Nat) (key src : String) :
    Nat × Bool × TemplateCacheState :=
  match cacheLookup key st.entries with
  | some cached =>
    if now - cached.compiledAt < CACHE_TTL then
      let upd : CacheEntry :=
        { cached with lastUsed := now, useCount := cached.useCount + 1 }
      (cached.tmplId, true, { st with entries := cacheSet key upd st.entries })
    else compileAndCache st now key src
  | none => compileAndCache st now key src

/-- Cache state holding one entry compiled at time 0. -/
def expiredEntryState : TemplateCacheState :=
  { entries :=
      [("default",
        { tmplId := 5, source := "tpl", compiledAt := 0, lastUsed := 0, useCount := 1 })]
    nextTmpl := 6 }

/-! ## The fixed HTML template and `generateHTML`
(`src/schemas/resume-schema.ts` / `src/templates/html-generator.ts`)

The compiled Handlebars template applied to
`{...resumeData, atsMode, templateName}`, embedded as a Lean function.
Static text is reproduced byte-for-byte from the template source
(standalone block-tag lines are removed, as Handlebars does); `\x7b` and
`\x7d` denote the CSS braces.  Double-stash insertions HTML-escape their
value with the Handlebars escape set; a missing value renders as the
empty string.  `{{#if}}` follows Handlebars truthiness: absent values,
empty strings and empty arrays are falsy. -/

def hbStr (o : Option String) : String := o.getD ""

def hbTruthyS (o : Option String) : Bool :=
  match o with
  | none => false
  | some s => !s.isEmpty

def hbTruthyList {a : Type} (o : Option (List a)) : Bool :=
  match o with
  | none => false
  | some l => !l.isEmpty

/-- Handlebars `escapeExpression` character mapping. -/
def escapeChar (c : Char) : String :=
  if c = '&' then "&amp;"
  else if c = '<' then "&lt;"
  else if c = '>' then "&gt;"
  else if c = Char.ofNat 34 then "&quot;"
  else if c = Char.ofNat 39 then "&#x27;"
  else if c = Char.ofNat 96 then "&#x60;"
  else if c = '=' then "&#x3D;"
  else String.mk [c]

def escapeHtml (s : String) : String :=
  String.join (s.data.map escapeChar)

/-- `{{formatDate x}}` on a possibly missing value: the helper returns
`"Present"` for a missing or empty date. -/
def formatDateHb (tz : Int) (o : Option String) : String :=
  formatDate tz (hbStr o)

/-- The `formatYear` helper. -/
def formatYear (tz : Int) (s : String) : String :=
  if s.data.isEmpty then ""
  else if jsIncludes s.data 'T' then
    let datePart := s.data.takeWhile (fun c => c != 'T')
    match (splitDash datePart).map toNumOpt with
    | some y :: some mo :: some d :: _ =>
      let utcDay := daysFromCivil y mo.toNat d.toNat
      let locDay := (utcDay * 1440 + tz).fdiv 1440
      toString (civilFromDays locDay).1
    | _ => ""
  else
    match (splitDash s.data).map toNumOpt with
    | some y :: _ => toString y
    | _ => "NaN"

/-- The `join` helper with its default separator. -/
def joinHelper (l : List String) : String :=
  String.intercalate ", " l

def renderHighlightList (hs : List String) : String :=
  if hs.isEmpty then ""
  else
    "      <ul class=\"highlights\">\n" ++
      String.join (hs.map (fun h => "        <li>" ++ escapeHtml h ++ "</li>\n")) ++
      "      </ul>\n"

def renderWorkEntry (tz : Int) (wk : WorkEntry) : String :=
  "    <div class=\"work-entry\">\n      <div class=\"job-header\">\n        <div>\n          <div class=\"job-title\">" ++ escapeHtml (hbStr wk.position) ++
  "</div>\n          <div class=\"company\">" ++ escapeHtml (hbStr wk.name) ++
  "</div>\n        </div>\n        <div class=\"dates-location\">\n          " ++ formatDateHb tz wk.startDate ++
  " - " ++ formatDateHb tz wk.endDate ++
  (if hbTruthyS wk.location then ", " ++ escapeHtml (hbStr wk.location) else "") ++
  "\n        </div>\n      </div>\n      " ++
  (if hbTruthyS wk.summary then "<p style=\"font-size: 10pt; margin: 3px 0;\">" ++ escapeHtml (hbStr wk.summary) ++ "</p>" else "") ++
  "\n" ++ renderHighlightList wk.highlights ++ "    </div>\n"

def renderWorkSection (tz : Int) (ws : Option (List WorkEntry)) : String :=
  if hbTruthyList ws then
    "  <section>\n    <h2>Work Experience</h2>\n" ++ String.join ((ws.getD []).map (renderWorkEntry tz)) ++ "  </section>\n"
  else ""

def renderEducationEntry (tz : Int) (ed : EducationEntry) : String :=
  "    <div class=\"education-entry\">\n      <h3>" ++ escapeHtml (hbStr ed.studyType) ++
  (if hbTruthyS ed.area then " - " ++ escapeHtml (hbStr ed.area) else "") ++
  "</h3>\n      <div class=\"education-details\">" ++ escapeHtml (hbStr ed.institution) ++
  (if hbTruthyS ed.location then " • " ++ escapeHtml (hbStr ed.location) else "") ++
  (if hbTruthyS ed.endDate then " • " ++ formatYear tz (hbStr ed.endDate) else "") ++
  "</div>\n      " ++
  (if hbTruthyS ed.startDate then "<p style=\"font-size: 10pt;\">" ++ formatDateHb tz ed.startDate ++ " - " ++ formatDateHb tz ed.endDate ++ "</p>" else "") ++
  "\n      " ++
  (if hbTruthyS ed.gpa then "<p style=\"font-size: 10pt;\">GPA: " ++ escapeHtml (hbStr ed.gpa) ++ "</p>" else "") ++
  "\n    </div>\n"

def renderEducationSection (tz : Int) (es : Option (List EducationEntry)) : String :=
  if hbTruthyList es then
    "  <section>\n    <h2>Education</h2>\n" ++ String.join ((es.getD []).map (renderEducationEntry tz)) ++ "  </section>\n"
  else ""

def renderProjectEntry (tz : Int) (pr : ProjectEntry) : String :=
  "    <div class=\"work-entry\">\n      <h3>" ++ escapeHtml (hbStr pr.name) ++
  "</h3>\n      " ++
  (if hbTruthyS pr.startDate then "<p class=\"dates\">" ++ formatDateHb tz pr.startDate ++ " - " ++ formatDateHb tz pr.endDate ++ "</p>" else "") ++
  "\n      " ++
  (if hbTruthyS pr.description then "<p style=\"margin: 8px 0;\">" ++ escapeHtml (hbStr pr.description) ++ "</p>" else "") ++
  "\n" ++ renderHighlightList pr.highlights ++ "    </div>\n"

def renderProjectsSection (tz : Int) (ps : Option (List ProjectEntry)) : String :=
  if hbTruthyList ps then
    "  <section>\n    <h2>Projects</h2>\n" ++ String.join ((ps.getD []).map (renderProjectEntry tz)) ++ "  </section>\n"
  else ""

def renderSkillGroup (sk : SkillGroup) : String :=
  "      <div class=\"skill-category\">\n        <span class=\"skill-name\">" ++ escapeHtml (hbStr sk.name) ++
  ":</span> <span class=\"keywords\">" ++ escapeHtml (joinHelper sk.keywords) ++
  "</span>\n      </div>\n"

def renderSkillsSection (sks : Option (List SkillGroup)) : String :=
  if hbTruthyList sks then
    "  <section>\n    <h2>Skills</h2>\n    <div class=\"skills-section\">\n" ++ String.join ((sks.getD []).map renderSkillGroup) ++ "    </div>\n  </section>\n"
  else ""

/-- The document head and header block (everything before the work
section). -/
def renderHeaderPart (tz : Int) (doc : ResumeDoc) (ats : Bool) : String :=
  let b := doc.basics.getD {}
  let loc := b.location.getD {}
  "<!DOCTYPE html>\n<html lang=\"en\">\n<head>\n  <meta charset=\"UTF-8\">\n  <meta name=\"viewport\" content=\"width=device-width, initial-scale=1.0\">\n  <title>" ++ escapeHtml (hbStr b.name) ++
  " - Resume</title>\n  <style>\n    @page \x7b\n      size: letter;\n      margin: 0.5in;\n    \x7d\n    body \x7b\n      font-family: Arial, sans-serif;\n      font-size: 11pt;\n      line-height: 1.3;\n      color: #000;\n      margin: 0;\n      padding: 0;\n      max-width: 7.5in;\n      background: white;\n    \x7d\n    h1 \x7b \n      font-size: 20pt; \n      font-weight: bold;\n      margin: 0 0 8px 0; \n      text-align: center;\n      color: #000;\n    \x7d\n    h2 \x7b \n      font-size: 12pt; \n      font-weight: bold;\n      margin: 16px 0 8px 0; \n      " ++ (if ats then "" else "text-transform: uppercase;\n      border-bottom: 1px solid #000; \n      padding-bottom: 2px;") ++
  "\n      color: #000;\n    \x7d\n    h3 \x7b \n      font-size: 11pt; \n      font-weight: bold;\n      margin: 10px 0 3px 0; \n      color: #000;\n    \x7d\n    p \x7b\n      margin: 3px 0;\n    \x7d\n    .contact-info \x7b \n      text-align: center;\n      margin-bottom: 20px; \n      font-size: 10pt;\n    \x7d\n    .contact-info span \x7b \n      margin: 0 8px;\n      color: #000;\n    \x7d\n    .work-entry, .education-entry \x7b \n      margin-bottom: 12px; \n    \x7d\n    .job-header \x7b\n      " ++ (if ats then "" else "display: flex;\n      justify-content: space-between;\n      align-items: baseline;") ++
  "\n      margin-bottom: 2px;\n    \x7d\n    .job-title \x7b \n      font-weight: bold; \n      font-size: 11pt;\n    \x7d\n    .company \x7b \n      font-weight: normal;\n      font-style: italic; \n      font-size: 11pt;\n      color: #5e5e5e;\n    \x7d\n    .dates-location \x7b \n      font-size: 10pt;\n      color: #000;\n      text-align: right;\n    \x7d\n    .highlights \x7b \n      margin: 5px 0 0 0; \n      padding-left: 16px;\n    \x7d\n    .highlights li \x7b \n      margin-bottom: 3px; \n      font-size: 10pt;\n      line-height: 1.2;\n    \x7d\n    .skills-section \x7b \n      margin-top: 8px; \n    \x7d\n    .skill-category \x7b \n      margin-bottom: 6px; \n      font-size: 10pt;\n    \x7d\n    .skill-name \x7b \n      font-weight: bold; \n      color: #000;\n    \x7d\n    .keywords \x7b \n      color: #000; \n      font-weight: normal;\n    \x7d\n    .education-details \x7b\n      font-size: 10pt;\n      margin-top: 2px;\n    \x7d\n  </style>\n</head>\n<body>\n  <header>\n    <h1>" ++ escapeHtml (hbStr b.name) ++
  "</h1>\n    " ++
  (if hbTruthyS b.label then "<p style=\"text-align: center; margin: 5px 0 15px 0; font-size: 14pt; font-weight: bold; color: #000;\">" ++ escapeHtml (hbStr b.label) ++ "</p>" else "") ++
  "\n    <div class=\"contact-info\">\n      " ++
  (if hbTruthyS loc.city then "<span>" ++ escapeHtml (hbStr loc.city) ++ (if hbTruthyS loc.region then ", " ++ escapeHtml (hbStr loc.region) else "") ++ "</span>" else "") ++
  "\n      " ++
  (if hbTruthyS b.email then "<span><strong>Email:</strong> " ++ escapeHtml (hbStr b.email) ++ "</span>" else "") ++
  "\n      " ++
  (if hbTruthyS b.phone then "<span><strong>Phone:</strong> " ++ escapeHtml (hbStr b.phone) ++ "</span>" else "") ++
  "\n      " ++
  (if hbTruthyS b.url then "<span>" ++ escapeHtml (hbStr b.url) ++ "</span>" else "") ++
  "\n    </div>\n    " ++
  (if hbTruthyS b.summary then "<p style=\"text-align: center; margin-bottom: 20px; font-style: italic;\">" ++ escapeHtml (hbStr b.summary) ++ "</p>" else "") ++
  "\n  </header>\n\n"

/-- The full compiled template applied to the document. -/
def defaultTemplateRender (tz : Int) (doc : ResumeDoc) (ats : Bool) : String :=
  renderHeaderPart tz doc ats ++
  renderWorkSection tz doc.work ++ "\n" ++
  renderEducationSection tz doc.education ++ "\n" ++
  renderProjectsSection tz doc.projects ++ "\n" ++
  renderSkillsSection doc.skills ++ "</body>\n</html>"

/-- `generateHTML(resumeData, options)`: always renders the single fixed
template; the template identifier only selects the cache key
(`"professional"` or `"default"`), and both keys are only ever populated
with the same fixed template source by this sole call site, so the cache
is output-transparent and only the `atsMode` flag reaches the template
data. -/
def generateHTML (tz : Int) (doc : ResumeDoc) (opts : PDFOptions) : String :=
  let templateName := opts.template.getD "ats-optimized"
  let cacheKey := if templateName = "professional" then "professional" else "default"
  defaultTemplateRender tz doc (opts.atsMode.getD false)

/-- Naive substring test on the underlying character lists. -/
def isSubstr (pat : List Char) : List Char → Bool
  | [] => pat.isEmpty
  | c :: t => pat.isPrefixOf (c :: t) || isSubstr pat t

def containsSubstr (s pat : String) : Bool :=
  isSubstr pat.data s.data

/-! # Theorems -/

/-! ### Basic facts about the scanner -/

theorem isPrefixOf_length_le :
    ∀ (l s : List Char), l.isPrefixOf s = true → l.length ≤ s.length := by
  intro l
  induction l with
  | nil => intro s _; simp
  | cons a as ih =>
    intro s h
    cases s with
    | nil => simp [List.isPrefixOf] at h
    | cons b bs =>
      simp only [List.isPrefixOf, Bool.and_eq_true] at h
      have := ih bs h.2
      simp only [List.length_cons]
      omega

theorem tryMatchLen_pos {p : Pat} {s : List Char} {n : Nat}
    (h : tryMatchLen p s = some n) : 1 ≤ n ∧ n ≤ s.length := by
  unfold tryMatchLen at h
  split at h
  case isFalse => exact absurd h (by simp)
  case isTrue hp =>
    split at h
    case isFalse => exact absurd h (by simp)
    case isTrue hv =>
      split at h
      case isTrue => exact absurd h (by simp)
      case isFalse =>
        have hn := Option.some_inj.mp h
        have hkey : p.key.length ≤ s.length := isPrefixOf_length_le _ _ hp
        have hdrop : (s.drop p.key.length).length = s.length - p.key.length :=
          List.length_drop _ _
        rw [hdrop] at hv
        omega

theorem scanGo_nil (p : Pat) (r : List Char) (fuel : Nat) :
    scanGo p r fuel [] = [] := by
  cases fuel <;> rfl

theorem scanGo_fuel_irrel (p : Pat) (r : List Char) :
    ∀ fuel₁ fuel₂ s, s.length ≤ fuel₁ → s.length ≤ fuel₂ →
      scanGo p r fuel₁ s = scanGo p r fuel₂ s := by
  intro fuel₁
  induction fuel₁ with
  | zero =>
    intro fuel₂ s h1 _
    have : s = [] := List.length_eq_zero.mp (Nat.le_zero.mp h1)
    subst this
    simp [scanGo_nil]
  | succ f ih =>
    intro fuel₂ s h1 h2
    cases s with
    | nil => simp [scanGo_nil]
    | cons c t =>
      cases fuel₂ with
      | zero => simp at h2
      | succ f₂ =>
        show scanGo p r (f + 1) (c :: t) = scanGo p r (f₂ + 1) (c :: t)
        simp only [List.length_cons] at h1 h2
        cases hm : tryMatchLen p (c :: t) with
        | some n =>
          obtain ⟨hn1, hn2⟩ := tryMatchLen_pos hm
          simp only [List.length_cons] at hn2
          have hlen : ((c :: t).drop n).length ≤ f := by
            simp only [List.length_drop, List.length_cons]
            omega
          have hlen₂ : ((c :: t).drop n).length ≤ f₂ := by
            simp only [List.length_drop, List.length_cons]
            omega
          simp only [scanGo, hm]
          rw [ih f₂ _ hlen hlen₂]
        | none =>
          have hlen : t.length ≤ f := by omega
          have hlen₂ : t.length ≤ f₂ := by omega
          simp only [scanGo, hm]
          rw [ih f₂ _ hlen hlen₂]

theorem replJS_nil (p : Pat) (r : List Char) : replJS p r [] = [] := rfl

theorem replJS_cons_none {p : Pat} {c : Char} {t : List Char} (r : List Char)
    (h : tryMatchLen p (c :: t) = none) :
    replJS p r (c :: t) = c :: replJS p r t := by
  show scanGo p r (c :: t).length (c :: t) = c :: replJS p r t
  simp only [List.length_cons, scanGo, h]
  rfl

theorem replJS_cons_some {p : Pat} {c : Char} {t : List Char} {n : Nat}
    (r : List Char) (h : tryMatchLen p (c :: t) = some n) :
    replJS p r (c :: t) = r ++ replJS p r ((c :: t).drop n) := by
  have hn := tryMatchLen_pos h
  show scanGo p r (c :: t).length (c :: t) = _
  simp only [List.length_cons, scanGo, h]
  congr 1
  apply scanGo_fuel_irrel
  · simp only [List.length_drop, List.length_cons]
    omega
  · exact Nat.le_refl _

/-! ### Match construction and refutation lemmas -/

theorem isPrefixOf_self_append (l x : List Char) :
    l.isPrefixOf (l ++ x) = true := by
  induction l with
  | nil => simp [List.isPrefixOf]
  | cons a as ih => simp [List.isPrefixOf, ih]

theorem takeWhile_append_stop {stop : Char} (v b : List Char)
    (hv : ∀ c ∈ v, c ≠ stop) :
    (v ++ stop :: b).takeWhile (fun c => c != stop) = v := by
  induction v with
  | nil => simp [List.takeWhile]
  | cons a as ih =>
    have ha : a ≠ stop := hv a (List.mem_cons_self _ _)
    have hab : (a != stop) = true := bne_iff_ne.mpr ha
    simp only [List.cons_append, List.takeWhile_cons, hab, if_true]
    rw [ih (fun c hc => hv c (List.mem_cons_of_mem _ hc))]

/-- A well-formed entry `KEY ++ v ++ [stop]` matches at position 0, and the
match consumes exactly the entry. -/
theorem tryMatchLen_entry (p : Pat) (v b : List Char)
    (hv : ∀ c ∈ v, c ≠ p.stop) (hone : p.minOne = true → v ≠ []) :
    tryMatchLen p (p.key ++ v ++ p.stop :: b) =
      some (p.key.length + v.length + 1) := by
  unfold tryMatchLen
  have hpre : p.key.isPrefixOf (p.key ++ (v ++ p.stop :: b)) = true :=
    isPrefixOf_self_append _ _
  rw [List.append_assoc] at *
  simp only [hpre, if_true]
  have hdrop : (p.key ++ (v ++ p.stop :: b)).drop p.key.length = v ++ p.stop :: b :=
    List.drop_left _ _
  rw [hdrop, takeWhile_append_stop v b hv]
  have hlt : v.length < (v ++ p.stop :: b).length := by
    simp [List.length_append]
  simp only [hlt, if_true]
  cases ho : p.minOne with
  | false => simp
  | true =>
    have : v ≠ [] := hone ho
    have : v.length ≠ 0 := fun h => this (List.length_eq_zero.mp h)
    simp [this]

theorem drop_entry_len (key v b : List Char) (stop : Char) :
    (key ++ v ++ stop :: b).drop (key.length + v.length + 1) = b := by
  have : key ++ v ++ stop :: b = (key ++ v ++ [stop]) ++ b := by simp
  rw [this]
  have hlen : (key ++ v ++ [stop]).length = key.length + v.length + 1 := by
    simp only [List.length_append, List.length_cons, List.length_nil]
  rw [← hlen, List.drop_left]

theorem take_entry_len (key v b : List Char) (stop : Char) :
    (key ++ v ++ stop :: b).take (key.length + v.length + 1) = key ++ v ++ [stop] := by
  have : key ++ v ++ stop :: b = (key ++ v ++ [stop]) ++ b := by simp
  rw [this]
  have hlen : (key ++ v ++ [stop]).length = key.length + v.length + 1 := by
    simp only [List.length_append, List.length_cons, List.length_nil]
  rw [← hlen, List.take_left]

theorem isPrefixOf_of_clash (w : List Char) :
    ∀ k1 k2, keysClash k1 k2 = true → k1.isPrefixOf (k2 ++ w) = false := by
  intro k1
  induction k1 with
  | nil => intro k2 h; cases k2 <;> simp [keysClash] at h
  | cons a as ih =>
    intro k2 h
    cases k2 with
    | nil => simp [keysClash] at h
    | cons b bs =>
      simp only [keysClash, Bool.or_eq_true] at h
      cases h with
      | inl hne =>
        simp only [List.cons_append, List.isPrefixOf, Bool.and_eq_false_iff]
        left
        simpa using hne
      | inr hcl =>
        simp only [List.cons_append, List.isPrefixOf, Bool.and_eq_false_iff]
        right
        exact ih bs hcl

theorem tryMatchLen_none_of_clash (p : Pat) (k2 w : List Char)
    (h : keysClash p.key k2 = true) : tryMatchLen p (k2 ++ w) = none := by
  unfold tryMatchLen
  rw [isPrefixOf_of_clash w p.key k2 h]
  simp

theorem tryMatchLen_none_head (p : Pat) {kh : Char} {kt : List Char}
    (hp : p.key = kh :: kt) {c : Char} (hc : c ≠ kh) (t : List Char) :
    tryMatchLen p (c :: t) = none := by
  unfold tryMatchLen
  have : p.key.isPrefixOf (c :: t) = false := by
    rw [hp]
    simp only [List.isPrefixOf, Bool.and_eq_false_iff]
    left
    exact beq_eq_false_iff_ne.mpr (fun h => hc h.symm)
  rw [this]
  simp

/-! ### Scanning across structured strings -/

/-- A segment containing no occurrence of the first key character passes
through the scanner unchanged. -/
theorem replJS_append_free (p : Pat) (r : List Char) {kh : Char} {kt : List Char}
    (hp : p.key = kh :: kt) (a b : List Char) (ha : ∀ c ∈ a, c ≠ kh) :
    replJS p r (a ++ b) = a ++ replJS p r b := by
  induction a with
  | nil => simp
  | cons c a' ih =>
    have hc : c ≠ kh := ha c (List.mem_cons_self _ _)
    have hnone := tryMatchLen_none_head p hp hc (a' ++ b)
    rw [List.cons_append, replJS_cons_none r hnone,
      ih (fun x hx => ha x (List.mem_cons_of_mem _ hx))]
    rfl

theorem replJS_free_id (p : Pat) (r : List Char) {kh : Char} {kt : List Char}
    (hp : p.key = kh :: kt) (a : List Char) (ha : ∀ c ∈ a, c ≠ kh) :
    replJS p r a = a := by
  have h2 := replJS_append_free p r hp a [] ha
  rw [List.append_nil] at h2
  rw [h2, replJS_nil, List.append_nil]

/-- The scanner deletes (or replaces by `r`, unscanned) a well-formed entry
of its own pattern and resumes right after it. -/
theorem replJS_entry (p : Pat) (r : List Char) (v b : List Char)
    (hv : ∀ c ∈ v, c ≠ p.stop) (hone : p.minOne = true → v ≠ []) :
    replJS p r (p.key ++ v ++ p.stop :: b) = r ++ replJS p r b := by
  have hm := tryMatchLen_entry p v b hv hone
  have hk : p.key ++ v ++ p.stop :: b ≠ [] := by
    intro h
    have := congrArg List.length h
    simp [List.length_append] at this
  cases he : p.key ++ v ++ p.stop :: b with
  | nil => exact absurd he hk
  | cons c t =>
    rw [← he]
    rw [he] at hm
    rw [he, replJS_cons_some r hm, ← he, drop_entry_len]

/-- Scanning pattern `p` across a complete entry of a clashing key leaves
the entry intact, provided the foreign key tail and value avoid the first
character of `p.key`. -/
theorem replJS_skip_foreign (p : Pat) (r : List Char) {kh : Char} {kt : List Char}
    (hp : p.key = kh :: kt) (q : Pat) {qh : Char} {qt : List Char}
    (hq : q.key = qh :: qt) (v b : List Char)
    (hclash : keysClash p.key q.key = true)
    (hqt : ∀ c ∈ qt, c ≠ kh) (hv : ∀ c ∈ v, c ≠ kh) (hstop : q.stop ≠ kh) :
    replJS p r (q.key ++ v ++ q.stop :: b) =
      q.key ++ v ++ q.stop :: replJS p r b := by
  have hfree : ∀ c ∈ qt ++ v ++ [q.stop], c ≠ kh := by
    intro c hc
    rcases List.mem_append.mp hc with hc2 | hc2
    · rcases List.mem_append.mp hc2 with h | h
      · exact hqt c h
      · exact hv c h
    · have hcs : c = q.stop := by simpa using hc2
      rw [hcs]
      exact hstop
  have hnone : tryMatchLen p (q.key ++ (v ++ q.stop :: b)) = none :=
    tryMatchLen_none_of_clash p q.key (v ++ q.stop :: b) hclash
  rw [hq] at hnone
  simp only [List.cons_append] at hnone
  rw [List.append_assoc, hq, List.cons_append, replJS_cons_none r hnone]
  have heq : qt ++ (v ++ q.stop :: b) = (qt ++ v ++ [q.stop]) ++ b := by simp
  rw [heq, replJS_append_free p r hp _ b hfree]
  simp

/-- `hasMatch` is `false` exactly when the scan is the identity. -/
theorem replJS_id_of_no_match (p : Pat) (r : List Char) :
    ∀ s, hasMatch p s = false → replJS p r s = s := by
  intro s
  induction s with
  | nil => intro _; rfl
  | cons c t ih =>
    intro h
    simp only [hasMatch, Bool.or_eq_false_iff] at h
    obtain ⟨h1, h2⟩ := h
    cases hm : tryMatchLen p (c :: t) with
    | some n => rw [hm] at h1; simp at h1
    | none => rw [replJS_cons_none r hm, ih h2]

theorem hasMatch_cons (p : Pat) (c : Char) (t : List Char) :
    hasMatch p (c :: t) = ((tryMatchLen p (c :: t)).isSome || hasMatch p t) :=
  rfl

theorem hasMatch_append_free (p : Pat) {kh : Char} {kt : List Char}
    (hp : p.key = kh :: kt) (a b : List Char) (ha : ∀ c ∈ a, c ≠ kh) :
    hasMatch p (a ++ b) = hasMatch p b := by
  induction a with
  | nil => rfl
  | cons c a' ih =>
    have hc : c ≠ kh := ha c (List.mem_cons_self _ _)
    have hnone := tryMatchLen_none_head p hp hc (a' ++ b)
    rw [List.cons_append, hasMatch_cons, hnone]
    simp only [Option.isSome_none, Bool.false_or]
    exact ih (fun x hx => ha x (List.mem_cons_of_mem _ hx))

theorem hasMatch_skip_foreign (p : Pat) {kh : Char} {kt : List Char}
    (hp : p.key = kh :: kt) (q : Pat) {qh : Char} {qt : List Char}
    (hq : q.key = qh :: qt) (v b : List Char)
    (hclash : keysClash p.key q.key = true)
    (hqt : ∀ c ∈ qt, c ≠ kh) (hv : ∀ c ∈ v, c ≠ kh) (hstop : q.stop ≠ kh) :
    hasMatch p (q.key ++ v ++ q.stop :: b) = hasMatch p b := by
  have hfree : ∀ c ∈ qt ++ v ++ [q.stop], c ≠ kh := by
    intro c hc
    rcases List.mem_append.mp hc with hc2 | hc2
    · rcases List.mem_append.mp hc2 with h | h
      · exact hqt c h
      · exact hv c h
    · have hcs : c = q.stop := by simpa using hc2
      rw [hcs]
      exact hstop
  have hnone : tryMatchLen p (q.key ++ (v ++ q.stop :: b)) = none :=
    tryMatchLen_none_of_clash p q.key (v ++ q.stop :: b) hclash
  rw [hq] at hnone
  simp only [List.cons_append] at hnone
  rw [List.append_assoc, hq, List.cons_append, hasMatch_cons, hnone]
  simp only [Option.isSome_none, Bool.false_or]
  have heq : qt ++ (v ++ q.stop :: b) = (qt ++ v ++ [q.stop]) ++ b := by simp
  rw [heq, hasMatch_append_free p hp _ b hfree]

/-! ### `allMatchesVal` scanning lemmas -/

theorem allGo_nil (p : Pat) (val : List Char) (fuel : Nat) :
    allGo p val fuel [] = true := by
  cases fuel <;> rfl

theorem allGo_fuel_irrel (p : Pat) (val : List Char) :
    ∀ fuel₁ fuel₂ s, s.length ≤ fuel₁ → s.length ≤ fuel₂ →
      allGo p val fuel₁ s = allGo p val fuel₂ s := by
  intro fuel₁
  induction fuel₁ with
  | zero =>
    intro fuel₂ s h1 _
    have : s = [] := List.length_eq_zero.mp (Nat.le_zero.mp h1)
    subst this
    simp [allGo_nil]
  | succ f ih =>
    intro fuel₂ s h1 h2
    cases s with
    | nil => simp [allGo_nil]
    | cons c t =>
      cases fuel₂ with
      | zero => simp at h2
      | succ f₂ =>
        show allGo p val (f + 1) (c :: t) = allGo p val (f₂ + 1) (c :: t)
        simp only [List.length_cons] at h1 h2
        cases hm : tryMatchLen p (c :: t) with
        | some n =>
          obtain ⟨hn1, hn2⟩ := tryMatchLen_pos hm
          simp only [List.length_cons] at hn2
          have hlen : ((c :: t).drop n).length ≤ f := by
            simp only [List.length_drop, List.length_cons]
            omega
          have hlen₂ : ((c :: t).drop n).length ≤ f₂ := by
            simp only [List.length_drop, List.length_cons]
            omega
          simp only [allGo, hm]
          rw [ih f₂ _ hlen hlen₂]
        | none =>
          have hlen : t.length ≤ f := by omega
          have hlen₂ : t.length ≤ f₂ := by omega
          simp only [allGo, hm]
          rw [ih f₂ _ hlen hlen₂]

theorem allMatchesVal_cons_none {p : Pat} {c : Char} {t : List Char}
    (val : List Char) (h : tryMatchLen p (c :: t) = none) :
    allMatchesVal p val (c :: t) = allMatchesVal p val t := by
  show allGo p val (c :: t).length (c :: t) = _
  simp only [List.length_cons, allGo, h]
  rfl

theorem allMatchesVal_cons_some {p : Pat} {c : Char} {t : List Char} {n : Nat}
    (val : List Char) (h : tryMatchLen p (c :: t) = some n) :
    allMatchesVal p val (c :: t) =
      (((c :: t).take n == p.key ++ val ++ [p.stop]) &&
        allMatchesVal p val ((c :: t).drop n)) := by
  obtain ⟨hn1, hn2⟩ := tryMatchLen_pos h
  simp only [List.length_cons] at hn2
  show allGo p val (c :: t).length (c :: t) = _
  simp only [List.length_cons, allGo, h]
  congr 1
  apply allGo_fuel_irrel
  · simp only [List.length_drop, List.length_cons]
    omega
  · exact Nat.le_refl _

theorem allMatchesVal_append_free (p : Pat) (val : List Char) {kh : Char}
    {kt : List Char} (hp : p.key = kh :: kt) (a b : List Char)
    (ha : ∀ c ∈ a, c ≠ kh) :
    allMatchesVal p val (a ++ b) = allMatchesVal p val b := by
  induction a with
  | nil => rfl
  | cons c a' ih =>
    have hc : c ≠ kh := ha c (List.mem_cons_self _ _)
    have hnone := tryMatchLen_none_head p hp hc (a' ++ b)
    rw [List.cons_append, allMatchesVal_cons_none val hnone]
    exact ih (fun x hx => ha x (List.mem_cons_of_mem _ hx))

theorem allMatchesVal_skip_foreign (p : Pat) (val : List Char) {kh : Char}
    {kt : List Char} (hp : p.key = kh :: kt) (q : Pat) {qh : Char}
    {qt : List Char} (hq : q.key = qh :: qt) (v b : List Char)
    (hclash : keysClash p.key q.key = true)
    (hqt : ∀ c ∈ qt, c ≠ kh) (hv : ∀ c ∈ v, c ≠ kh) (hstop : q.stop ≠ kh) :
    allMatchesVal p val (q.key ++ v ++ q.stop :: b) = allMatchesVal p val b := by
  have hfree : ∀ c ∈ qt ++ v ++ [q.stop], c ≠ kh := by
    intro c hc
    rcases List.mem_append.mp hc with hc2 | hc2
    · rcases List.mem_append.mp hc2 with h | h
      · exact hqt c h
      · exact hv c h
    · have hcs : c = q.stop := by simpa using hc2
      rw [hcs]
      exact hstop
  have hnone : tryMatchLen p (q.key ++ (v ++ q.stop :: b)) = none :=
    tryMatchLen_none_of_clash p q.key (v ++ q.stop :: b) hclash
  rw [hq] at hnone
  simp only [List.cons_append] at hnone
  rw [List.append_assoc, hq, List.cons_append, allMatchesVal_cons_none val hnone]
  have heq : qt ++ (v ++ q.stop :: b) = (qt ++ v ++ [q.stop]) ++ b := by simp
  rw [heq, allMatchesVal_append_free p val hp _ b hfree]

/-- An entry whose value is exactly `val` is accepted by `allMatchesVal`. -/
theorem allMatchesVal_entry_self (p : Pat) (val b : List Char)
    (hv : ∀ c ∈ val, c ≠ p.stop) (hone : p.minOne = true → val ≠ []) :
    allMatchesVal p val (p.key ++ val ++ p.stop :: b) = allMatchesVal p val b := by
  have hm := tryMatchLen_entry p val b hv hone
  have hk : p.key ++ val ++ p.stop :: b ≠ [] := by
    intro h
    have := congrArg List.length h
    simp [List.length_append] at this
  cases he : p.key ++ val ++ p.stop :: b with
  | nil => exact absurd he hk
  | cons c t =>
    rw [he] at hm
    rw [allMatchesVal_cons_some val hm, ← he, drop_entry_len, take_entry_len]
    simp

/-- If every match in `s` already carries the constant value, replacing each
match by `KEY ++ val ++ [stop]` is the identity. -/
theorem replJS_id_of_allMatchesVal (p : Pat) (val : List Char) :
    ∀ s, allMatchesVal p val s = true →
      replJS p (p.key ++ val ++ [p.stop]) s = s := by
  suffices hgen : ∀ fuel (s : List Char), s.length ≤ fuel →
      allMatchesVal p val s = true →
      replJS p (p.key ++ val ++ [p.stop]) s = s by
    intro s hs
    exact hgen s.length s (Nat.le_refl _) hs
  intro fuel
  induction fuel with
  | zero =>
    intro s hlen _
    have : s = [] := List.length_eq_zero.mp (Nat.le_zero.mp hlen)
    subst this
    rfl
  | succ m ih =>
    intro s hlen hall
    cases s with
    | nil => rfl
    | cons c t =>
      simp only [List.length_cons] at hlen
      cases hm : tryMatchLen p (c :: t) with
      | none =>
        rw [allMatchesVal_cons_none val hm] at hall
        rw [replJS_cons_none _ hm, ih t (by omega) hall]
      | some n =>
        obtain ⟨hn1, hn2⟩ := tryMatchLen_pos hm
        simp only [List.length_cons] at hn2
        rw [allMatchesVal_cons_some val hm, Bool.and_eq_true] at hall
        obtain ⟨htake, hrest⟩ := hall
        have htake2 : (c :: t).take n = p.key ++ val ++ [p.stop] :=
          eq_of_beq htake
        have hdl : ((c :: t).drop n).length ≤ m := by
          simp only [List.length_drop, List.length_cons]
          omega
        rw [replJS_cons_some _ hm, ih _ hdl hrest, ← htake2,
          List.take_append_drop]

/-! ### Structured artifacts

To reason about whole normalization passes, an artifact is presented as a
sequence of items: free segments (no `/`, the first character of every
metadata key) and well-formed `KEY (value)` entries.  The lemmas below
push one `replJS` pass through such a sequence. -/

theorem keysClash_self (k : List Char) : keysClash k k = false := by
  induction k with
  | nil => rfl
  | cons a as ih => simp [keysClash, ih]

theorem docStr_append (l1 l2 : List PdfItem) :
    docStr (l1 ++ l2) = docStr l1 ++ docStr l2 := by
  induction l1 with
  | nil => rfl
  | cons it rest ih => simp [docStr, ih]

theorem entry_shape (q : Pat) (v : List Char) (b : List Char) :
    (q.key ++ v ++ [q.stop]) ++ b = q.key ++ v ++ q.stop :: b := by
  simp

/-- One full `replJS` pass over a structured artifact. -/
theorem replJS_doc (p : Pat) {kh : Char} {kt : List Char}
    (hk : p.key = kh :: kt) (rIt : List PdfItem) :
    ∀ items : List PdfItem, (∀ it ∈ items, ItemOK p kh it) →
      replJS p (docStr rIt) (docStr items) =
        docStr (items.flatMap (passItem p rIt)) := by
  intro items
  induction items with
  | nil => intro _; rfl
  | cons it rest ih =>
    intro hok
    have hit := hok it (List.mem_cons_self _ _)
    have hrest := fun x hx => hok x (List.mem_cons_of_mem _ hx)
    cases hit with
    | seg hu =>
      rename_i u
      show replJS p (docStr rIt) (itemStr (.seg u) ++ docStr rest) = _
      rw [itemStr, replJS_append_free p _ hk _ _ hu, ih hrest,
        List.flatMap_cons, docStr_append]
      simp [passItem, docStr, itemStr]
    | own hv hone =>
      rename_i v
      show replJS p (docStr rIt) (itemStr (.entry p v) ++ docStr rest) = _
      rw [itemStr, entry_shape, replJS_entry p _ _ _ hv hone, ih hrest,
        List.flatMap_cons, docStr_append]
      simp [passItem]
    | foreign hq hclash hqt hv hstop =>
      rename_i q v qh qt
      have hne : q ≠ p := by
        intro h
        rw [h, keysClash_self] at hclash
        exact absurd hclash (by simp)
      show replJS p (docStr rIt) (itemStr (.entry q v) ++ docStr rest) = _
      rw [itemStr, entry_shape,
        replJS_skip_foreign p _ hk q hq _ _ hclash hqt hv hstop, ih hrest,
        List.flatMap_cons, docStr_append]
      simp [passItem, hne, docStr, itemStr]

theorem hasMatch_doc (p : Pat) {kh : Char} {kt : List Char}
    (hk : p.key = kh :: kt) :
    ∀ items : List PdfItem, (∀ it ∈ items, ItemFree p kh it) →
      hasMatch p (docStr items) = false := by
  intro items
  induction items with
  | nil => intro _; rfl
  | cons it rest ih =>
    intro hok
    have hit := hok it (List.mem_cons_self _ _)
    have hrest := fun x hx => hok x (List.mem_cons_of_mem _ hx)
    cases hit with
    | seg hu =>
      rename_i u
      show hasMatch p (itemStr (.seg u) ++ docStr rest) = false
      rw [itemStr, hasMatch_append_free p hk _ _ hu]
      exact ih hrest
    | foreign hq hclash hqt hv hstop =>
      rename_i q v qh qt
      show hasMatch p (itemStr (.entry q v) ++ docStr rest) = false
      rw [itemStr, entry_shape,
        hasMatch_skip_foreign p hk q hq _ _ hclash hqt hv hstop]
      exact ih hrest

theorem allMatchesVal_doc (p : Pat) {kh : Char} {kt : List Char}
    (hk : p.key = kh :: kt) (val : List Char) :
    ∀ items : List PdfItem, (∀ it ∈ items, ItemVal p kh val it) →
      allMatchesVal p val (docStr items) = true := by
  intro items
  induction items with
  | nil => intro _; rfl
  | cons it rest ih =>
    intro hok
    have hit := hok it (List.mem_cons_self _ _)
    have hrest := fun x hx => hok x (List.mem_cons_of_mem _ hx)
    cases hit with
    | seg hu =>
      rename_i u
      show allMatchesVal p val (itemStr (.seg u) ++ docStr rest) = true
      rw [itemStr, allMatchesVal_append_free p val hk _ _ hu]
      exact ih hrest
    | ownVal hv hone =>
      show allMatchesVal p val (itemStr (.entry p val) ++ docStr rest) = true
      rw [itemStr, entry_shape, allMatchesVal_entry_self p val _ hv hone]
      exact ih hrest
    | foreign hq hclash hqt hv hstop =>
      rename_i q v qh qt
      show allMatchesVal p val (itemStr (.entry q v) ++ docStr rest) = true
      rw [itemStr, entry_shape,
        allMatchesVal_skip_foreign p val hk q hq _ _ hclash hqt hv hstop]
      exact ih hrest

/-! ## Claim C1 -/

theorem patCre_key : patCre.key = '/' :: "CreationDate (".data := by decide

theorem patMod_key : patMod.key = '/' :: "ModDate (".data := by decide

theorem patID_key : patID.key = '/' :: "ID [".data := by decide

theorem patProd_key : patProd.key = '/' :: "Producer (".data := by decide

theorem patCreat_key : patCreat.key = '/' :: "Creator (".data := by decide

theorem passItem_seg (p : Pat) (rIt : List PdfItem) (u : List Char) :
    passItem p rIt (.seg u) = [.seg u] := rfl

theorem passItem_own (p : Pat) (rIt : List PdfItem) (v : List Char) :
    passItem p rIt (.entry p v) = rIt := by simp [passItem]

theorem passItem_other (p : Pat) (rIt : List PdfItem) (q : Pat) (v : List Char)
    (h : ¬(q = p)) : passItem p rIt (.entry q v) = [.entry q v] := by
  simp [passItem, h]

theorem docStr_nil : docStr [] = [] := rfl

theorem prodRepl_doc : prodRepl = docStr [.entry patProd constVal] := by decide

theorem creatRepl_doc : creatRepl = docStr [.entry patCreat constVal] := by decide

/-- C1 (counterexample): the claim quantifies over every artifact byte
string, but removal does not re-scan spliced text: on the artifact
`"/CreationDate /CreationDate (x)(y)"` the default normalization
produces `"/CreationDate (y)"`, which still contains a
`/CreationDate (...)` metadata entry. -/
theorem ensureDeterministicPDF_splice_counterexample :
    ensureDeterministicPDF DEFAULT_DETERMINISTIC_CONFIG
        "/CreationDate /CreationDate (x)(y)".data = "/CreationDate (y)".data ∧
      hasMatch patCre
        (ensureDeterministicPDF DEFAULT_DETERMINISTIC_CONFIG
          "/CreationDate /CreationDate (x)(y)".data) = true :=
  ⟨by decide, by decide⟩

/-- C1 (amended): on artifacts whose metadata entries are well formed and
whose surrounding bytes contain no `/` (so that no removal can splice a
fresh metadata occurrence), the default configuration removes every
CreationDate, ModDate and ID entry and rewrites every Producer and
Creator value to the constant `Resume PDF Generator`; the claim as
stated over every byte string fails on spliced occurrences. -/
theorem ensureDeterministicPDF_default_strips_metadata
    (u0 c u1 m u2 i u3 pv u4 cv u5 : List Char)
    (hu0 : ∀ x ∈ u0, x ≠ '/') (hu1 : ∀ x ∈ u1, x ≠ '/')
    (hu2 : ∀ x ∈ u2, x ≠ '/') (hu3 : ∀ x ∈ u3, x ≠ '/')
    (hu4 : ∀ x ∈ u4, x ≠ '/') (hu5 : ∀ x ∈ u5, x ≠ '/')
    (hc : ∀ x ∈ c, x ≠ ')')
    (hm : ∀ x ∈ m, x ≠ ')' ∧ x ≠ '/')
    (hi : ∀ x ∈ i, x ≠ ']' ∧ x ≠ '/') (hine : i ≠ [])
    (hpv : ∀ x ∈ pv, x ≠ ')' ∧ x ≠ '/')
    (hcv : ∀ x ∈ cv, x ≠ ')' ∧ x ≠ '/') :
    ensureDeterministicPDF DEFAULT_DETERMINISTIC_CONFIG
        (docStr (pdfArtifact u0 c u1 m u2 i u3 pv u4 cv u5)) =
      docStr (pdfNormalized u0 u1 u2 u3 u4 u5) ∧
    hasMatch patCre (docStr (pdfNormalized u0 u1 u2 u3 u4 u5)) = false ∧
    hasMatch patMod (docStr (pdfNormalized u0 u1 u2 u3 u4 u5)) = false ∧
    hasMatch patID (docStr (pdfNormalized u0 u1 u2 u3 u4 u5)) = false ∧
    allMatchesVal patProd constVal
      (docStr (pdfNormalized u0 u1 u2 u3 u4 u5)) = true ∧
    allMatchesVal patCreat constVal
      (docStr (pdfNormalized u0 u1 u2 u3 u4 u5)) = true := by
  have hok1 : ∀ it ∈ pdfArtifact u0 c u1 m u2 i u3 pv u4 cv u5,
      ItemOK patCre '/' it := by
    intro it hit
    simp only [pdfArtifact, List.mem_cons, List.not_mem_nil, or_false] at hit
    rcases hit with rfl | rfl | rfl | rfl | rfl | rfl | rfl | rfl | rfl | rfl | rfl
    · exact .seg hu0
    · exact .own hc (fun h => absurd h (by decide))
    · exact .seg hu1
    · exact .foreign patMod_key (by decide) (by decide)
        (fun x hx => (hm x hx).2) (by decide)
    · exact .seg hu2
    · exact .foreign patID_key (by decide) (by decide)
        (fun x hx => (hi x hx).2) (by decide)
    · exact .seg hu3
    · exact .foreign patProd_key (by decide) (by decide)
        (fun x hx => (hpv x hx).2) (by decide)
    · exact .seg hu4
    · exact .foreign patCreat_key (by decide) (by decide)
        (fun x hx => (hcv x hx).2) (by decide)
    · exact .seg hu5
  have h1 : replJS patCre [] (docStr (pdfArtifact u0 c u1 m u2 i u3 pv u4 cv u5)) =
      docStr (pdfArt1 u0 u1 m u2 i u3 pv u4 cv u5) := by
    have h := replJS_doc patCre patCre_key [] _ hok1
    rw [docStr_nil] at h
    rw [h]
    rfl
  have hok2 : ∀ it ∈ pdfArt1 u0 u1 m u2 i u3 pv u4 cv u5,
      ItemOK patMod '/' it := by
    intro it hit
    simp only [pdfArt1, List.mem_cons, List.not_mem_nil, or_false] at hit
    rcases hit with rfl | rfl | rfl | rfl | rfl | rfl | rfl | rfl | rfl | rfl
    · exact .seg hu0
    · exact .seg hu1
    · exact .own (fun x hx => (hm x hx).1) (fun h => absurd h (by decide))
    · exact .seg hu2
    · exact .foreign patID_key (by decide) (by decide)
        (fun x hx => (hi x hx).2) (by decide)
    · exact .seg hu3
    · exact .foreign patProd_key (by decide) (by decide)
        (fun x hx => (hpv x hx).2) (by decide)
    · exact .seg hu4
    · exact .foreign patCreat_key (by decide) (by decide)
        (fun x hx => (hcv x hx).2) (by decide)
    · exact .seg hu5
  have h2 : replJS patMod [] (docStr (pdfArt1 u0 u1 m u2 i u3 pv u4 cv u5)) =
      docStr (pdfArt2 u0 u1 u2 i u3 pv u4 cv u5) := by
    have h := replJS_doc patMod patMod_key [] _ hok2
    rw [docStr_nil] at h
    rw [h]
    rfl
  have hok3 : ∀ it ∈ pdfArt2 u0 u1 u2 i u3 pv u4 cv u5,
      ItemOK patID '/' it := by
    intro it hit
    simp only [pdfArt2, List.mem_cons, List.not_mem_nil, or_false] at hit
    rcases hit with rfl | rfl | rfl | rfl | rfl | rfl | rfl | rfl | rfl
    · exact .seg hu0
    · exact .seg hu1
    · exact .seg hu2
    · exact .own (fun x hx => (hi x hx).1) (fun _ => hine)
    · exact .seg hu3
    · exact .foreign patProd_key (by decide) (by decide)
        (fun x hx => (hpv x hx).2) (by decide)
    · exact .seg hu4
    · exact .foreign patCreat_key (by decide) (by decide)
        (fun x hx => (hcv x hx).2) (by decide)
    · exact .seg hu5
  have h3 : replJS patID [] (docStr (pdfArt2 u0 u1 u2 i u3 pv u4 cv u5)) =
      docStr (pdfArt3 u0 u1 u2 u3 pv u4 cv u5) := by
    have h := replJS_doc patID patID_key [] _ hok3
    rw [docStr_nil] at h
    rw [h]
    rfl
  have hok4 : ∀ it ∈ pdfArt3 u0 u1 u2 u3 pv u4 cv u5,
      ItemOK patProd '/' it := by
    intro it hit
    simp only [pdfArt3, List.mem_cons, List.not_mem_nil, or_false] at hit
    rcases hit with rfl | rfl | rfl | rfl | rfl | rfl | rfl | rfl
    · exact .seg hu0
    · exact .seg hu1
    · exact .seg hu2
    · exact .seg hu3
    · exact .own (fun x hx => (hpv x hx).1) (fun h => absurd h (by decide))
    · exact .seg hu4
    · exact .foreign patCreat_key (by decide) (by decide)
        (fun x hx => (hcv x hx).2) (by decide)
    · exact .seg hu5
  have h4 : replJS patProd prodRepl (docStr (pdfArt3 u0 u1 u2 u3 pv u4 cv u5)) =
      docStr (pdfArt4 u0 u1 u2 u3 u4 cv u5) := by
    have h := replJS_doc patProd patProd_key [.entry patProd constVal] _ hok4
    rw [← prodRepl_doc] at h
    rw [h]
    rfl
  have hok5 : ∀ it ∈ pdfArt4 u0 u1 u2 u3 u4 cv u5,
      ItemOK patCreat '/' it := by
    intro it hit
    simp only [pdfArt4, List.mem_cons, List.not_mem_nil, or_false] at hit
    rcases hit with rfl | rfl | rfl | rfl | rfl | rfl | rfl | rfl
    · exact .seg hu0
    · exact .seg hu1
    · exact .seg hu2
    · exact .seg hu3
    · exact .foreign patProd_key (by decide) (by decide) (by decide) (by decide)
    · exact .seg hu4
    · exact .own (fun x hx => (hcv x hx).1) (fun h => absurd h (by decide))
    · exact .seg hu5
  have h5 : replJS patCreat creatRepl (docStr (pdfArt4 u0 u1 u2 u3 u4 cv u5)) =
      docStr (pdfNormalized u0 u1 u2 u3 u4 u5) := by
    have h := replJS_doc patCreat patCreat_key [.entry patCreat constVal] _ hok5
    rw [← creatRepl_doc] at h
    rw [h]
    rfl
  have hfreeCre : ∀ it ∈ pdfNormalized u0 u1 u2 u3 u4 u5,
      ItemFree patCre '/' it := by
    intro it hit
    simp only [pdfNormalized, List.mem_cons, List.not_mem_nil, or_false] at hit
    rcases hit with rfl | rfl | rfl | rfl | rfl | rfl | rfl | rfl
    · exact .seg hu0
    · exact .seg hu1
    · exact .seg hu2
    · exact .seg hu3
    · exact .foreign patProd_key (by decide) (by decide) (by decide) (by decide)
    · exact .seg hu4
    · exact .foreign patCreat_key (by decide) (by decide) (by decide) (by decide)
    · exact .seg hu5
  have hfreeMod : ∀ it ∈ pdfNormalized u0 u1 u2 u3 u4 u5,
      ItemFree patMod '/' it := by
    intro it hit
    simp only [pdfNormalized, List.mem_cons, List.not_mem_nil, or_false] at hit
    rcases hit with rfl | rfl | rfl | rfl | rfl | rfl | rfl | rfl
    · exact .seg hu0
    · exact .seg hu1
    · exact .seg hu2
    · exact .seg hu3
    · exact .foreign patProd_key (by decide) (by decide) (by decide) (by decide)
    · exact .seg hu4
    · exact .foreign patCreat_key (by decide) (by decide) (by decide) (by decide)
    · exact .seg hu5
  have hfreeID : ∀ it ∈ pdfNormalized u0 u1 u2 u3 u4 u5,
      ItemFree patID '/' it := by
    intro it hit
    simp only [pdfNormalized, List.mem_cons, List.not_mem_nil, or_false] at hit
    rcases hit with rfl | rfl | rfl | rfl | rfl | rfl | rfl | rfl
    · exact .seg hu0
    · exact .seg hu1
    · exact .seg hu2
    · exact .seg hu3
    · exact .foreign patProd_key (by decide) (by decide) (by decide) (by decide)
    · exact .seg hu4
    · exact .foreign patCreat_key (by decide) (by decide) (by decide) (by decide)
    · exact .seg hu5
  have hvalProd : ∀ it ∈ pdfNormalized u0 u1 u2 u3 u4 u5,
      ItemVal patProd '/' constVal it := by
    intro it hit
    simp only [pdfNormalized, List.mem_cons, List.not_mem_nil, or_false] at hit
    rcases hit with rfl | rfl | rfl | rfl | rfl | rfl | rfl | rfl
    · exact .seg hu0
    · exact .seg hu1
    · exact .seg hu2
    · exact .seg hu3
    · exact .ownVal (by decide) (fun h => absurd h (by decide))
    · exact .seg hu4
    · exact .foreign patCreat_key (by decide) (by decide) (by decide) (by decide)
    · exact .seg hu5
  have hvalCreat : ∀ it ∈ pdfNormalized u0 u1 u2 u3 u4 u5,
      ItemVal patCreat '/' constVal it := by
    intro it hit
    simp only [pdfNormalized, List.mem_cons, List.not_mem_nil, or_false] at hit
    rcases hit with rfl | rfl | rfl | rfl | rfl | rfl | rfl | rfl
    · exact .seg hu0
    · exact .seg hu1
    · exact .seg hu2
    · exact .seg hu3
    · exact .foreign patProd_key (by decide) (by decide) (by decide) (by decide)
    · exact .seg hu4
    · exact .ownVal (by decide) (fun h => absurd h (by decide))
    · exact .seg hu5
  refine ⟨?_, ?_, ?_, ?_, ?_, ?_⟩
  · show replJS patCreat creatRepl (replJS patProd prodRepl (replJS patID []
      (replJS patMod [] (replJS patCre []
        (docStr (pdfArtifact u0 c u1 m u2 i u3 pv u4 cv u5)))))) = _
    rw [h1, h2, h3, h4, h5]
  · exact hasMatch_doc patCre patCre_key _ hfreeCre
  · exact hasMatch_doc patMod patMod_key _ hfreeMod
  · exact hasMatch_doc patID patID_key _ hfreeID
  · exact allMatchesVal_doc patProd patProd_key constVal _ hvalProd
  · exact allMatchesVal_doc patCreat patCreat_key constVal _ hvalCreat

/-- C1 (witness): the amended theorem instantiated on a concrete artifact. -/
theorem ensureDeterministicPDF_default_strips_metadata_witness :
    ensureDeterministicPDF DEFAULT_DETERMINISTIC_CONFIG
        (docStr (pdfArtifact "a".data "D:1".data "b".data "D:2".data
          "c".data "x9".data "d".data "pw0".data "e".data "cq1".data
          "f".data)) =
      docStr (pdfNormalized "a".data "b".data "c".data "d".data "e".data
        "f".data) ∧
    hasMatch patCre (docStr (pdfNormalized "a".data "b".data "c".data
      "d".data "e".data "f".data)) = false ∧
    hasMatch patMod (docStr (pdfNormalized "a".data "b".data "c".data
      "d".data "e".data "f".data)) = false ∧
    hasMatch patID (docStr (pdfNormalized "a".data "b".data "c".data
      "d".data "e".data "f".data)) = false ∧
    allMatchesVal patProd constVal (docStr (pdfNormalized "a".data "b".data
      "c".data "d".data "e".data "f".data)) = true ∧
    allMatchesVal patCreat constVal (docStr (pdfNormalized "a".data "b".data
      "c".data "d".data "e".data "f".data)) = true :=
  ensureDeterministicPDF_default_strips_metadata
    "a".data "D:1".data "b".data "D:2".data "c".data "x9".data "d".data
    "pw0".data "e".data "cq1".data "f".data
    (by decide) (by decide) (by decide) (by decide) (by decide) (by decide)
    (by decide) (by decide) (by decide) (by decide) (by decide) (by decide)

/-! ## Claim C2 -/

theorem prodRepl_entry : prodRepl = patProd.key ++ constVal ++ [patProd.stop] := by
  decide

theorem creatRepl_entry : creatRepl = patCreat.key ++ constVal ++ [patCreat.stop] := by
  decide

/-- A string with no timestamp or ID match left, and whose Producer and
Creator values all equal the constant, is a fixed point of
`ensureDeterministicPDF` for every configuration without a fixed
creation date. -/
theorem ensureDeterministicPDF_fixpoint (cfg : DeterministicConfig)
    (t : List Char) (hfix : cfg.fixedCreationDate = none)
    (h1 : hasMatch patCre t = false) (h2 : hasMatch patMod t = false)
    (h3 : hasMatch patID t = false)
    (h4 : allMatchesVal patProd constVal t = true)
    (h5 : allMatchesVal patCreat constVal t = true) :
    ensureDeterministicPDF cfg t = t := by
  have hCre := replJS_id_of_no_match patCre [] _ h1
  have hMod := replJS_id_of_no_match patMod [] _ h2
  have hID := replJS_id_of_no_match patID [] _ h3
  have hProd : replJS patProd prodRepl t = t := by
    rw [prodRepl_entry]
    exact replJS_id_of_allMatchesVal patProd constVal _ h4
  have hCreat : replJS patCreat creatRepl t = t := by
    rw [creatRepl_entry]
    exact replJS_id_of_allMatchesVal patCreat constVal _ h5
  unfold ensureDeterministicPDF
  rw [hfix]
  cases hrt : cfg.removeTimestamps <;> cases hrv : cfg.removeVariableMetadata <;>
    simp [hCre, hMod, hID, hProd, hCreat]

/-- C2 (counterexample): with a `fixedCreationDate` configured, the
normalizer is not idempotent: on `"/Title (x)"` the first pass inserts
the fixed CreationDate entry after the title, and the second pass
removes it and re-inserts it, leaving behind an extra newline. -/
theorem ensureDeterministicPDF_not_idempotent_counterexample :
    ensureDeterministicPDF
        { removeTimestamps := true,
          fixedCreationDate := some "D:20240101000000Z".data,
          removeVariableMetadata := true } "/Title (x)".data =
      "/Title (x)\n/CreationDate (D:20240101000000Z)".data ∧
    ensureDeterministicPDF
        { removeTimestamps := true,
          fixedCreationDate := some "D:20240101000000Z".data,
          removeVariableMetadata := true }
        (ensureDeterministicPDF
          { removeTimestamps := true,
            fixedCreationDate := some "D:20240101000000Z".data,
            removeVariableMetadata := true } "/Title (x)".data) =
      "/Title (x)\n/CreationDate (D:20240101000000Z)\n".data ∧
    ensureDeterministicPDF
        { removeTimestamps := true,
          fixedCreationDate := some "D:20240101000000Z".data,
          removeVariableMetadata := true }
        (ensureDeterministicPDF
          { removeTimestamps := true,
            fixedCreationDate := some "D:20240101000000Z".data,
            removeVariableMetadata := true } "/Title (x)".data) ≠
      ensureDeterministicPDF
        { removeTimestamps := true,
          fixedCreationDate := some "D:20240101000000Z".data,
          removeVariableMetadata := true } "/Title (x)".data :=
  ⟨by decide, by decide, by decide⟩

/-- C2 (amended): for every configuration without a `fixedCreationDate`,
normalization is idempotent on every artifact whose one-pass output is
fully normalized: no CreationDate, ModDate or ID match remains (true
except when a removal splices a fresh occurrence) and every Producer and
Creator value equals the constant.  With a `fixedCreationDate`
configured a second application alters the bytes. -/
theorem ensureDeterministicPDF_idempotent (cfg : DeterministicConfig)
    (s : List Char) (hfix : cfg.fixedCreationDate = none)
    (h1 : hasMatch patCre (ensureDeterministicPDF cfg s) = false)
    (h2 : hasMatch patMod (ensureDeterministicPDF cfg s) = false)
    (h3 : hasMatch patID (ensureDeterministicPDF cfg s) = false)
    (h4 : allMatchesVal patProd constVal (ensureDeterministicPDF cfg s) = true)
    (h5 : allMatchesVal patCreat constVal (ensureDeterministicPDF cfg s) = true) :
    ensureDeterministicPDF cfg (ensureDeterministicPDF cfg s) =
      ensureDeterministicPDF cfg s :=
  ensureDeterministicPDF_fixpoint cfg _ hfix h1 h2 h3 h4 h5

/-- C2 (witness): idempotence on a concrete artifact under the default
configuration. -/
theorem ensureDeterministicPDF_idempotent_witness :
    ensureDeterministicPDF DEFAULT_DETERMINISTIC_CONFIG
        (ensureDeterministicPDF DEFAULT_DETERMINISTIC_CONFIG
          "ab/CreationDate (D:x)c/ID [99]d/Producer (pw)e".data) =
      ensureDeterministicPDF DEFAULT_DETERMINISTIC_CONFIG
        "ab/CreationDate (D:x)c/ID [99]d/Producer (pw)e".data :=
  ensureDeterministicPDF_idempotent DEFAULT_DETERMINISTIC_CONFIG
    "ab/CreationDate (D:x)c/ID [99]d/Producer (pw)e".data
    (by decide) (by decide) (by decide) (by decide) (by decide) (by decide)

/-! ## Claim C3 -/

theorem jsIncludes_eq_false (l : List Char) (a : Char)
    (h : ∀ c ∈ l, c ≠ a) : jsIncludes l a = false := by
  induction l with
  | nil => rfl
  | cons c t ih =>
    simp only [jsIncludes, List.any_cons, Bool.or_eq_false_iff]
    constructor
    · exact beq_eq_false_iff_ne.mpr (h c (List.mem_cons_self _ _))
    · exact ih (fun x hx => h x (List.mem_cons_of_mem _ hx))

theorem splitDash_no_dash (a : List Char) (ha : ∀ c ∈ a, c ≠ '-') :
    splitDash a = [a] := by
  induction a with
  | nil => rfl
  | cons c t ih =>
    have hc : c ≠ '-' := ha c (List.mem_cons_self _ _)
    have ih2 := ih (fun x hx => ha x (List.mem_cons_of_mem _ hx))
    simp only [splitDash, if_neg hc, ih2]

theorem splitDash_append (a rest : List Char) (ha : ∀ c ∈ a, c ≠ '-') :
    splitDash (a ++ '-' :: rest) = a :: splitDash rest := by
  induction a with
  | nil => simp [splitDash]
  | cons c t ih =>
    have hc : c ≠ '-' := ha c (List.mem_cons_self _ _)
    have ih2 := ih (fun x hx => ha x (List.mem_cons_of_mem _ hx))
    simp only [List.cons_append, splitDash, if_neg hc,
      List.append_eq_has_append, ih2]

theorem isDigit_ne_dash {c : Char} (h : c.isDigit = true) : c ≠ '-' := by
  intro he
  rw [he] at h
  exact absurd h (by decide)

theorem isDigit_ne_T {c : Char} (h : c.isDigit = true) : c ≠ 'T' := by
  intro he
  rw [he] at h
  exact absurd h (by decide)

/-- C3 (counterexample): the claim covers every string of the form
YYYY-MM-DD, but the host `Date(year, monthIndex, day)` constructor maps
years 0 to 99 to 1900 + year, so `"0099-03-15"` renders as
`"March 1999"`, not the month and year of the calendar day 0099-03-15. -/
theorem formatDate_two_digit_year_counterexample :
    formatDate 0 "0099-03-15" = "March 1999" ∧
      formatDate 0 "0099-03-15" ≠ "March 99" :=
  ⟨by decide, by decide⟩

/-- C3 (amended): for every date-only string of the form YYYY-MM-DD
denoting a real calendar day with year at least 100 (excluding the
two-digit-year range remapped by the host `Date` constructor), the
helper returns the long-form month and year of that day, identically in
every host timezone; the empty value renders as `"Present"`. -/
theorem formatDate_dateOnly (tzOffsetMinutes : Int) (ys ms ds : List Char)
    (y m d : Int)
    (hysd : ∀ c ∈ ys, c.isDigit = true) (hmsd : ∀ c ∈ ms, c.isDigit = true)
    (hdsd : ∀ c ∈ ds, c.isDigit = true)
    (hysl : ys.length = 4) (hmsl : ms.length = 2) (hdsl : ds.length = 2)
    (hyv : toNumOpt ys = some y) (hmv : toNumOpt ms = some m)
    (hdv : toNumOpt ds = some d)
    (hy : 100 ≤ y) (hm1 : 1 ≤ m) (hm2 : m ≤ 12)
    (hd1 : 1 ≤ d) (hd2 : d ≤ (daysInMonth y (m - 1).toNat : Int)) :
    formatDate tzOffsetMinutes (String.mk (ys ++ '-' :: (ms ++ '-' :: ds))) =
        monthLongName (m - 1).toNat ++ " " ++ toString y ∧
      formatDate tzOffsetMinutes "" = "Present" := by
  constructor
  · have hnoT : ∀ c ∈ ys ++ '-' :: (ms ++ '-' :: ds), c ≠ 'T' := by
      intro c hc
      rcases List.mem_append.mp hc with h | h
      · exact isDigit_ne_T (hysd c h)
      · rcases List.mem_cons.mp h with h | h
        · rw [h]; decide
        · rcases List.mem_append.mp h with h | h
          · exact isDigit_ne_T (hmsd c h)
          · rcases List.mem_cons.mp h with h | h
            · rw [h]; decide
            · exact isDigit_ne_T (hdsd c h)
    have hsplit : splitDash (ys ++ '-' :: (ms ++ '-' :: ds)) = [ys, ms, ds] := by
      rw [splitDash_append ys _ (fun c hc => isDigit_ne_dash (hysd c hc)),
        splitDash_append ms _ (fun c hc => isDigit_ne_dash (hmsd c hc)),
        splitDash_no_dash ds (fun c hc => isDigit_ne_dash (hdsd c hc))]
    have hemp : (ys ++ '-' :: (ms ++ '-' :: ds)).isEmpty = false := by
      cases hys : ys with
      | nil => rw [hys] at hysl; simp at hysl
      | cons a t => rfl
    show formatDate tzOffsetMinutes ⟨ys ++ '-' :: (ms ++ '-' :: ds)⟩ = _
    unfold formatDate
    simp only [hemp, Bool.false_eq_true, if_false,
      jsIncludes_eq_false _ _ hnoT, hsplit, List.map_cons, hyv, hmv, hdv]
    have hyy : jsMakeFullYear y = y := by
      unfold jsMakeFullYear
      rw [if_neg]
      omega
    have hfd : (m - 1).fdiv 12 = 0 := by
      rw [Int.fdiv_eq_ediv _ (by norm_num)]
      omega
    have hem : ((m - 1).emod 12).toNat = (m - 1).toNat := by
      have h0 : (m - 1) % 12 = m - 1 := by omega
      have h1 : (m - 1).emod 12 = m - 1 := h0
      rw [h1]
    have hnorm : normDays (d.toNat + 1) y ((m - 1).toNat) d.toNat =
        (y, (m - 1).toNat, d.toNat) := by
      have hd0 : ¬(d.toNat = 0) := by omega
      have hdim : ¬(daysInMonth y (m - 1).toNat < d.toNat) := by omega
      unfold normDays
      rw [if_neg hd0, if_neg hdim]
    unfold jsDateYearMonth
    simp only [hyy, hfd, hem, Int.add_zero, hnorm]
  · rfl

/-- C3 (witness): `"2021-03-15"` renders as `"March 2021"` in a
negative-UTC-offset host timezone, and the empty value as `"Present"`. -/
theorem formatDate_dateOnly_witness :
    formatDate (-480) "2021-03-15" = "March 2021" ∧
      formatDate (-480) "" = "Present" := by
  have h := formatDate_dateOnly (-480) "2021".data "03".data "15".data
    2021 3 15 (by decide) (by decide) (by decide) (by decide) (by decide)
    (by decide) (by decide) (by decide) (by decide) (by decide) (by decide)
    (by decide) (by decide) (by decide)
  constructor
  · have h1 := h.1
    have e1 : String.mk ("2021".data ++ '-' :: ("03".data ++ '-' :: "15".data)) =
        "2021-03-15" := by decide
    have e2 : monthLongName ((3 : Int) - 1).toNat ++ " " ++ toString (2021 : Int) =
        "March 2021" := by decide
    rw [e1, e2] at h1
    exact h1
  · exact h.2

/-! ## Claim C4 -/

/-- C4 (code bug): after a successful acquisition, the browser process
dies while the stale context remains set.  The next `getBrowserPage`
recreates only the browser — `ensureBrowser` skips `createContext`
because `this.context` is non-null — and `newPage()` on the dead
context of the dead browser throws, so the call surfaces an error instead of
succeeding transparently as the specification requires. -/
theorem getBrowserPage_stale_context_fails :
    getBrowserPage initialPool 1 = .ok (poolAfterFirst, 1) ∧
    browserDies poolAfterFirst = poolStale ∧
    getBrowserPage poolStale 2 =
      .error "Target page, context or browser has been closed" :=
  ⟨rfl, rfl, rfl⟩

/-! ## Claim C10 -/

/-- C10: `shutdown` leaves the flag `false` on completion (it is not
terminal), tears down browser and context, a `getBrowserPage` issued
while a shutdown is still in progress (flag set) is rejected with the
pool-unavailable error, and a `getBrowserPage` after a completed
shutdown succeeds by lazily recreating browser and context. -/
theorem shutdown_not_terminal (st : PoolState) (now : Nat)
    (h : st.isShuttingDown = false) :
    (shutdown st).isShuttingDown = false ∧
    (shutdown st).browser = none ∧
    (shutdown st).context = none ∧
    (∀ stBusy : PoolState, stBusy.isShuttingDown = true →
      getBrowserPage stBusy now = .error "Browser pool is shutting down") ∧
    getBrowserPage (shutdown st) now =
      .ok ({ browser := some ⟨st.nextId, true⟩
             context := some st.nextId
             isShuttingDown := false
             lastUsed := now
             idleTimerSet := true
             nextId := st.nextId + 1 }, st.nextId + 1) := by
  have hsd : shutdown st =
      { st with
        browser := none
        context := none
        isShuttingDown := false
        idleTimerSet := false } := by
    unfold shutdown
    rw [if_neg (by simp [h])]
  refine ⟨by rw [hsd], by rw [hsd], by rw [hsd], ?_, ?_⟩
  · intro stBusy hb
    unfold getBrowserPage
    rw [hb]
    rfl
  · rw [hsd]
    simp [getBrowserPage, ensureBrowser, createBrowser, createContext,
      contextAlive]

/-- C10 (witness): instantiated on the pool state after one acquisition. -/
theorem shutdown_not_terminal_witness :
    (shutdown poolAfterFirst).isShuttingDown = false ∧
    (shutdown poolAfterFirst).browser = none ∧
    (shutdown poolAfterFirst).context = none ∧
    (∀ stBusy : PoolState, stBusy.isShuttingDown = true →
      getBrowserPage stBusy 7 = .error "Browser pool is shutting down") ∧
    getBrowserPage (shutdown poolAfterFirst) 7 =
      .ok ({ browser := some ⟨1, true⟩
             context := some 1
             isShuttingDown := false
             lastUsed := 7
             idleTimerSet := true
             nextId := 2 }, 2) :=
  shutdown_not_terminal poolAfterFirst 7 (by decide)

/-! ## Claim C5 -/

/-- C5 (counterexample): disk exhaustion surfaces as `ENOSPC`, which the
catch block does not treat as a file-system error: the claim maps disk
exhaustion to `FileSystemError`, but the code raises
`PDFGenerationError`. -/
theorem generatePDF_enospc_counterexample :
    generatePDFRun johnDoc {} (some (.exportStep,
        { code := some "ENOSPC", message := "no space left on device" })) =
      .error (.pdfGeneration
        "Failed to generate PDF: no space left on device") ∧
    (GenError.pdfGeneration "Failed to generate PDF: no space left on device") ≠
      (GenError.fileSystem "Cannot write to output path: resume.pdf") :=
  ⟨rfl, by decide⟩

/-- C5 (amended): for schema-valid input, a failure inside the try block
surfaces as `FileSystemError` carrying the output path exactly when the
code of the thrown error is `ENOENT` or `EACCES`; every other failure —
including disk exhaustion (`ENOSPC`) — surfaces as `PDFGenerationError`
carrying the underlying message. -/
theorem generatePDF_error_mapping (doc : ResumeDoc) (opts : PDFOptions)
    (step : PdfStep) (e : JsError) (hv : validateResumeDataB doc = true) :
    (generatePDFRun doc opts (some (step, e)) =
        .error (.fileSystem ("Cannot write to output path: " ++
          opts.output.getD "resume.pdf")) ↔
      (e.code = some "ENOENT" ∨ e.code = some "EACCES")) ∧
    (¬(e.code = some "ENOENT" ∨ e.code = some "EACCES") →
      generatePDFRun doc opts (some (step, e)) =
        .error (.pdfGeneration ("Failed to generate PDF: " ++ e.message))) := by
  unfold generatePDFRun mapCaughtError
  rw [hv]
  by_cases hc : e.code = some "ENOENT" ∨ e.code = some "EACCES"
  · simp [hc]
  · simp [hc]

/-- C5 (witness): an `ENOENT` failure on the concrete document maps to
`FileSystemError` with the default output path. -/
theorem generatePDF_error_mapping_witness :
    ((generatePDFRun johnDoc {} (some (.mkdirStep,
        { code := some "ENOENT", message := "no such file or directory" })) =
      .error (.fileSystem ("Cannot write to output path: " ++
        (({} : PDFOptions).output.getD "resume.pdf")))) ↔
      ((some "ENOENT" : Option String) = some "ENOENT" ∨
        (some "ENOENT" : Option String) = some "EACCES")) ∧
    (¬((some "ENOENT" : Option String) = some "ENOENT" ∨
        (some "ENOENT" : Option String) = some "EACCES") →
      generatePDFRun johnDoc {} (some (.mkdirStep,
        { code := some "ENOENT", message := "no such file or directory" })) =
        .error (.pdfGeneration
          ("Failed to generate PDF: " ++ "no such file or directory"))) :=
  generatePDF_error_mapping johnDoc {} .mkdirStep
    { code := some "ENOENT", message := "no such file or directory" }
    (by decide)

/-! ## Claim C8 -/

/-- C8 (counterexample): `generatePDF` does re-validate: on an in-memory
resume whose `basics.name` is empty it fails with a validation error
before any rendering, contradicting the claim that the pipeline never
fails with a validation error. -/
theorem generatePDF_revalidates_counterexample :
    generatePDFRun emptyNameDoc {} none =
      .error (.validation "Resume validation failed") ∧
    validateResumeDataB emptyNameDoc = false :=
  ⟨rfl, by decide⟩

/-- C8 (amended): `generatePDF` re-validates its input by calling
`validateResumeData` on entry: schema-invalid input fails with a
`ValidationError` regardless of how the rest of the pipeline behaves,
and schema-valid input is never rejected with a validation error by any
later stage. -/
theorem generatePDF_validation_boundary (doc : ResumeDoc) (opts : PDFOptions)
    (failure : Option (PdfStep × JsError)) :
    (validateResumeDataB doc = true →
      ∀ msg, generatePDFRun doc opts failure ≠ .error (.validation msg)) ∧
    (validateResumeDataB doc = false →
      generatePDFRun doc opts failure =
        .error (.validation "Resume validation failed")) := by
  constructor
  · intro hv msg
    unfold generatePDFRun
    rw [hv]
    cases failure with
    | none => simp
    | some fe =>
      simp only [Bool.not_true, Bool.false_eq_true, if_false]
      unfold mapCaughtError
      by_cases hc : fe.2.code = some "ENOENT" ∨ fe.2.code = some "EACCES" <;>
        simp [hc]
  · intro hv
    unfold generatePDFRun
    rw [hv]
    rfl

/-- C8 (witness): the boundary instantiated on the concrete document and
an export failure. -/
theorem generatePDF_validation_boundary_witness :
    ((validateResumeDataB johnDoc = true →
      ∀ msg, generatePDFRun johnDoc {} (some (.exportStep,
        { code := none, message := "boom" })) ≠ .error (.validation msg)) ∧
    (validateResumeDataB johnDoc = false →
      generatePDFRun johnDoc {} (some (.exportStep,
        { code := none, message := "boom" })) =
        .error (.validation "Resume validation failed"))) ∧
    validateResumeDataB johnDoc = true :=
  ⟨generatePDF_validation_boundary johnDoc {}
    (some (.exportStep, { code := none, message := "boom" })), by decide⟩

/-! ## Claim C9 -/

/-- C9: a template served from the cache was compiled less than
`CACHE_TTL` before the lookup, and an entry whose age has reached the
TTL is never reused — `getTemplate` recompiles instead, regardless of
any eviction consideration. -/
theorem getTemplate_ttl_invariant (st : TemplateCacheState) (now : Nat)
    (key src : String) :
    (∀ tid st2, getTemplate st now key src = (tid, true, st2) →
      ∃ e, cacheLookup key st.entries = some e ∧ e.tmplId = tid ∧
        now - e.compiledAt < CACHE_TTL) ∧
    (∀ e, cacheLookup key st.entries = some e →
      CACHE_TTL ≤ now - e.compiledAt →
      (getTemplate st now key src).1 = st.nextTmpl ∧
        (getTemplate st now key src).2.1 = false) := by
  constructor
  · intro tid st2 h
    unfold getTemplate at h
    split at h
    · rename_i cached hl
      split at h
      · rename_i ht
        refine ⟨cached, hl, ?_, ht⟩
        have h1 := congrArg (fun x => x.1) h
        simpa using h1
      · simp [compileAndCache] at h
    · simp [compileAndCache] at h
  · intro e hl ht
    have hnl : ¬(now - e.compiledAt < CACHE_TTL) := by omega
    unfold getTemplate
    rw [hl]
    simp [hnl, compileAndCache]

/-- C9 (witness): at time `CACHE_TTL` the stored entry has exactly
reached its TTL and is recompiled rather than reused. -/
theorem getTemplate_ttl_invariant_witness :
    ((∀ tid st2,
      getTemplate expiredEntryState CACHE_TTL "default" "tpl" = (tid, true, st2) →
      ∃ e, cacheLookup "default" expiredEntryState.entries = some e ∧
        e.tmplId = tid ∧ CACHE_TTL - e.compiledAt < CACHE_TTL) ∧
    (∀ e, cacheLookup "default" expiredEntryState.entries = some e →
      CACHE_TTL ≤ CACHE_TTL - e.compiledAt →
      (getTemplate expiredEntryState CACHE_TTL "default" "tpl").1 = 6 ∧
        (getTemplate expiredEntryState CACHE_TTL "default" "tpl").2.1 = false)) ∧
    (getTemplate expiredEntryState CACHE_TTL "default" "tpl").2.1 = false :=
  ⟨getTemplate_ttl_invariant expiredEntryState CACHE_TTL "default" "tpl",
    by decide⟩

set_option maxRecDepth 100000 in
theorem johnDocWorkHeading :
    containsSubstr (defaultTemplateRender 0 johnDoc false)
      "<h2>Work Experience</h2>" = true := by decide

set_option maxRecDepth 100000 in
theorem johnDocNoEducationHeading :
    containsSubstr (defaultTemplateRender 0 johnDoc false)
      "<h2>Education</h2>" = false := by decide

set_option maxRecDepth 100000 in
theorem johnDocNoProjectsHeading :
    containsSubstr (defaultTemplateRender 0 johnDoc false)
      "<h2>Projects</h2>" = false := by decide

set_option maxRecDepth 100000 in
theorem johnDocNoSkillsHeading :
    containsSubstr (defaultTemplateRender 0 johnDoc false)
      "<h2>Skills</h2>" = false := by decide

/-! ## Claim C6 -/

/-- C6: `generateHTML` never fails on a template identifier: every
identifier, recognized or not, renders with the single default template,
byte-identically to the render with no identifier supplied; the output
depends only on the document and the ATS flag. -/
theorem generateHTML_unknown_template_falls_back (tz : Int) (doc : ResumeDoc)
    (opts : PDFOptions) (name : String) :
    generateHTML tz doc { opts with template := some name } =
      generateHTML tz doc { opts with template := none } ∧
    generateHTML tz doc opts =
      defaultTemplateRender tz doc (opts.atsMode.getD false) :=
  ⟨rfl, rfl⟩

/-! ## Claim C7 -/

/-- C7: when the optional education, projects and skills sections are
absent (or empty — Handlebars treats both as falsy), the corresponding
blocks contribute nothing to the output, which consists of the head and
header part, the work section and the closing tags only; in particular
the render of a document carrying only the required identity and work
fields contains no Education, Projects or Skills headings, while the
work heading is present. -/
theorem generateHTML_section_omission (tz : Int) (doc : ResumeDoc) (ats : Bool)
    (he : hbTruthyList doc.education = false)
    (hp : hbTruthyList doc.projects = false)
    (hs : hbTruthyList doc.skills = false) :
    renderEducationSection tz doc.education = "" ∧
    renderProjectsSection tz doc.projects = "" ∧
    renderSkillsSection doc.skills = "" ∧
    defaultTemplateRender tz doc ats =
      renderHeaderPart tz doc ats ++ renderWorkSection tz doc.work ++
        "\n" ++ "\n" ++ "\n" ++ "</body>\n</html>" ∧
    containsSubstr (defaultTemplateRender 0 johnDoc false)
      "<h2>Education</h2>" = false ∧
    containsSubstr (defaultTemplateRender 0 johnDoc false)
      "<h2>Projects</h2>" = false ∧
    containsSubstr (defaultTemplateRender 0 johnDoc false)
      "<h2>Skills</h2>" = false ∧
    containsSubstr (defaultTemplateRender 0 johnDoc false)
      "<h2>Work Experience</h2>" = true := by
  have h1 : renderEducationSection tz doc.education = "" := by
    simp [renderEducationSection, he]
  have h2 : renderProjectsSection tz doc.projects = "" := by
    simp [renderProjectsSection, hp]
  have h3 : renderSkillsSection doc.skills = "" := by
    simp [renderSkillsSection, hs]
  refine ⟨h1, h2, h3, ?_, johnDocNoEducationHeading, johnDocNoProjectsHeading, johnDocNoSkillsHeading, johnDocWorkHeading⟩
  unfold defaultTemplateRender
  rw [h1, h2, h3]
  simp [String.append_assoc, String.append_empty]

/-- C7 (witness): the omission theorem instantiated on the concrete
identity-and-work-only document. -/
theorem generateHTML_section_omission_witness :
    renderEducationSection 0 johnDoc.education = "" ∧
    renderProjectsSection 0 johnDoc.projects = "" ∧
    renderSkillsSection johnDoc.skills = "" ∧
    defaultTemplateRender 0 johnDoc false =
      renderHeaderPart 0 johnDoc false ++ renderWorkSection 0 johnDoc.work ++
        "\n" ++ "\n" ++ "\n" ++ "</body>\n</html>" ∧
    containsSubstr (defaultTemplateRender 0 johnDoc false)
      "<h2>Education</h2>" = false ∧
    containsSubstr (defaultTemplateRender 0 johnDoc false)
      "<h2>Projects</h2>" = false ∧
    containsSubstr (defaultTemplateRender 0 johnDoc false)
      "<h2>Skills</h2>" = false ∧
    containsSubstr (defaultTemplateRender 0 johnDoc false)
      "<h2>Work Experience</h2>" = true :=
  generateHTML_section_omission 0 johnDoc false (by decide) (by decide)
    (by decide)
